import Mathlib

/-!
# Wrenasmir Wradio: track selection, playback controller and visualizer

A shallow embedding of `src/app.js`.

* JavaScript numbers that hold indices are `Int`; dial values, volumes and
  frequencies are exact rationals (`ℚ`) in place of IEEE doubles.
* The module-level `state` object together with the DOM fields the handlers
  write is the record `State`.
* Everything the browser decides (the outcome of `audio.play()`, the values
  returned by `Math.random()`, `audio.paused`, frame timestamps) is an explicit
  input.
* An `async` function is run as one atomic step whose awaited promises are
  settled by the inputs (`Settled.pending` leaves the continuation unrun).
* The history `state.lastTrackByStation` is a plain object created as `{}`:
  reading a key gives the own property if there is one and otherwise what
  `Object.prototype` provides under that name (`histGet`, `histSet`).
* `State.calls` is a ghost log that records, in order, which functions and
  audio-element methods were invoked.
-/

namespace Wradio

/-! ## Data model -/

/-- The value found in the `url` slot of a track. -/
inductive UrlValue where
  | str (s : String)
  | nonString
  deriving DecidableEq, Repr

/-- A value found in a station's `tracks` array: a falsy value (`null`,
`undefined`, ...) or a truthy value with its `title` and `url` slots. -/
inductive Track where
  | falsy
  | obj (title : Option String) (url : UrlValue)
  deriving DecidableEq, Repr

/-- A normalised station, as produced by `validateStationData`. -/
structure Station where
  id : String
  name : String
  tracks : List Track
  deriving DecidableEq, Repr

/-- Functions and audio-element methods recorded in the ghost call log. -/
inductive Call where
  | getNextTrack
  | playFromCurrentStation
  | initAudioGraph
  | audioPlay
  | audioPause
  deriving DecidableEq, Repr

/-- The class put on the status dot by `setStatus`. -/
inductive StatusMode where
  | idle
  | live
  | warn
  deriving DecidableEq, Repr

/-- A dial snap animation whose next frame is scheduled: the captured
variables of the `tick` closure of `animateStationDialTo`. -/
structure Snap where
  start : ℚ
  target : Int
  startedAt : ℚ
  deriving DecidableEq

/-- A JavaScript number that holds an integer, or `NaN`. -/
inductive JsNum where
  | int (i : Int)
  | nan
  deriving DecidableEq, Repr

/-- What reading a key of the history object gives: `undefined`, a number
stored by `getNextTrack`, or a member inherited from `Object.prototype` (a
function, or the prototype itself for `__proto__`). -/
inductive HistoryValue where
  | undefined
  | num (n : JsNum)
  | inherited
  deriving DecidableEq, Repr

/-- The `state` object of `app.js` (visualizer fields apart, see `Visual`),
the DOM fields the handlers write, and the ghost call log. -/
structure State where
  stations : List Station
  stationIndex : Int
  currentTrack : Option Track
  isShuffle : Bool
  isPoweredOn : Bool
  lastTrackByStation : List (String × JsNum)
  audioCtx : Bool
  analyser : Bool
  sourceNode : Bool
  toneFilter : Option ℚ
  gainNode : Option ℚ
  frequencyData : Bool
  waveformData : Bool
  consecutiveTrackErrors : Nat
  useAudioGraph : Bool
  stationSnapAnimating : Bool
  pendingSnap : Option Snap
  audioSrc : Option String
  audioVolume : ℚ
  stationDialValue : ℚ
  volumeDialValue : ℚ
  toneDialValue : ℚ
  controlsEnabled : Bool
  statusText : String
  statusMode : StatusMode
  trackTitle : String
  trackMeta : String
  helperText : String
  powerBtnText : String
  shuffleBtnText : String
  stationLabels : List (String × Bool)
  calls : List Call
  deriving DecidableEq

/-- The state right after the module's top-level declarations (lines 18-38),
with the dials at the given positions. -/
def initialState (volumeDial toneDial : ℚ) : State where
  stations := []
  stationIndex := 0
  currentTrack := none
  isShuffle := true
  isPoweredOn := false
  lastTrackByStation := []
  audioCtx := false
  analyser := false
  sourceNode := false
  toneFilter := none
  gainNode := none
  frequencyData := false
  waveformData := false
  consecutiveTrackErrors := 0
  useAudioGraph := false
  stationSnapAnimating := false
  pendingSnap := none
  audioSrc := none
  audioVolume := 1
  stationDialValue := 0
  volumeDialValue := volumeDial
  toneDialValue := toneDial
  controlsEnabled := false
  statusText := ""
  statusMode := StatusMode.idle
  trackTitle := ""
  trackMeta := ""
  helperText := ""
  powerBtnText := ""
  shuffleBtnText := ""
  stationLabels := []
  calls := []

/-! ## Small JavaScript helpers -/

/-- `s.startsWith(p)` on strings. -/
def jsStartsWith (s p : String) : Bool :=
  p.data.isPrefixOf s.data

/-- `xs[i]` for a number `i` holding an integer: `none` is `undefined`. -/
def jsIndex {α : Type} (xs : List α) (i : Int) : Option α :=
  if 0 ≤ i then xs[i.toNat]? else none

/-- `Math.max(lo, Math.min(hi, x))` on integers. -/
def clampInt (lo hi x : Int) : Int :=
  max lo (min hi x)

/-- `Math.round(x)`: the nearest integer, halves rounded up. -/
def jsRound (x : ℚ) : Int :=
  ⌊x + 1 / 2⌋

/-- `xs[n]` for a number `n`: `xs[NaN]` is `undefined`. -/
def jsIndexNum {α : Type} (xs : List α) : JsNum → Option α
  | JsNum.int i => jsIndex xs i
  | JsNum.nan => none

/-- The property names every plain object inherits from `Object.prototype`. -/
def objectPrototypeKeys : List String :=
  ["constructor", "hasOwnProperty", "isPrototypeOf", "propertyIsEnumerable",
   "toLocaleString", "toString", "valueOf", "__defineGetter__", "__defineSetter__",
   "__lookupGetter__", "__lookupSetter__", "__proto__"]

/-- The own property `key` of the history object, if it has one. -/
def ownGet : List (String × JsNum) → String → Option JsNum
  | [], _ => none
  | (k, v) :: rest, key => if k = key then some v else ownGet rest key

/-- Creating or updating the own property `key` of the history object. -/
def ownSet : List (String × JsNum) → String → JsNum → List (String × JsNum)
  | [], key, v => [(key, v)]
  | (k, w) :: rest, key, v =>
    if k = key then (k, v) :: rest else (k, w) :: ownSet rest key v

/-- Reading `state.lastTrackByStation[key]`. The object is created as `{}`
(line 24), so a key it does not own resolves through `Object.prototype`;
`__proto__` is an accessor there and always gives the prototype. -/
def histGet (h : List (String × JsNum)) (key : String) : HistoryValue :=
  if key = "__proto__" then HistoryValue.inherited
  else
    match ownGet h key with
    | some n => HistoryValue.num n
    | none =>
      if key ∈ objectPrototypeKeys then HistoryValue.inherited else HistoryValue.undefined

/-- The assignment `state.lastTrackByStation[key] = n` of a number `n`: it
creates or updates an own property, except that the `__proto__` setter of
`Object.prototype` ignores a number. -/
def histSet (h : List (String × JsNum)) (key : String) (n : JsNum) :
    List (String × JsNum) :=
  if key = "__proto__" then h else ownSet h key n

/-- The expression `((lastIndex ?? -1) + 1) % length` of `getNextTrack`:
adding 1 to an inherited member gives a string, whose remainder is `NaN`. -/
def nextSequentialIndex (lastIndex : HistoryValue) (length : Nat) : JsNum :=
  match lastIndex with
  | HistoryValue.undefined => JsNum.int (Int.tmod (-1 + 1) (length : Int))
  | HistoryValue.num (JsNum.int i) => JsNum.int (Int.tmod (i + 1) (length : Int))
  | HistoryValue.num JsNum.nan => JsNum.nan
  | HistoryValue.inherited => JsNum.nan

/-- Append an entry to the ghost call log. -/
def logCall (s : State) (c : Call) : State :=
  { s with calls := s.calls ++ [c] }

/-- The function `setStatus(text, mode)`. -/
def setStatus (s : State) (text : String) (mode : StatusMode) : State :=
  { s with statusText := text, statusMode := mode }

/-! ## Track selection -/

/-- The function `sanitizeTrack(track)`, as the truthiness of its result. -/
def sanitizeTrack : Track → Bool
  | Track.falsy => false
  | Track.obj _ (UrlValue.str url) => jsStartsWith url "http"
  | Track.obj _ UrlValue.nonString => false

/-- The expression `station.tracks.filter(sanitizeTrack)`. -/
def validTracksOf (station : Station) : List Track :=
  station.tracks.filter sanitizeTrack

/-- The function `getCurrentStation()`. -/
def getCurrentStation (s : State) : Option Station :=
  jsIndex s.stations s.stationIndex

/-- The expression `Math.floor(Math.random() * n)` for a draw `r`. -/
def randomIndexOf (r : ℚ) (n : Nat) : Int :=
  ⌊r * (n : ℚ)⌋

/-- The loop `while (randomIndex === lastIndex) randomIndex = ...` of
`getNextTrack`, fed with the remaining draws of `Math.random()`; `none` when
the draws run out before the loop ends. -/
def resampleLoop (n : Nat) (lastIndex : HistoryValue) (randomIndex : Int) :
    List ℚ → Option Int
  | [] =>
    if HistoryValue.num (JsNum.int randomIndex) = lastIndex then none else some randomIndex
  | r :: rest =>
    if HistoryValue.num (JsNum.int randomIndex) = lastIndex then
      resampleLoop n lastIndex (randomIndexOf r n) rest
    else some randomIndex

/-- The function `getNextTrack(station)`. The result is `none` when the
resampling loop does not end on the given draws; otherwise the returned track
(`none` for `null`/`undefined`) and the new state. -/
def getNextTrack (s : State) (station : Station) (draws : List ℚ) :
    Option (Option Track × State) :=
  let s := logCall s Call.getNextTrack
  let validTracks := validTracksOf station
  if validTracks.length = 0 then some (none, s)
  else if s.isShuffle = false then
    let lastIndex := histGet s.lastTrackByStation station.id
    let nextIndex := nextSequentialIndex lastIndex validTracks.length
    some (jsIndexNum validTracks nextIndex,
      { s with lastTrackByStation := histSet s.lastTrackByStation station.id nextIndex })
  else if validTracks.length = 1 then
    some (jsIndex validTracks 0,
      { s with lastTrackByStation :=
          histSet s.lastTrackByStation station.id (JsNum.int 0) })
  else
    match draws with
    | [] => none
    | r :: rest =>
      let lastIndex := histGet s.lastTrackByStation station.id
      match resampleLoop validTracks.length lastIndex
          (randomIndexOf r validTracks.length) rest with
      | none => none
      | some randomIndex =>
        some (jsIndex validTracks randomIndex,
          { s with lastTrackByStation :=
              histSet s.lastTrackByStation station.id (JsNum.int randomIndex) })

/-- The results of consecutive calls `getNextTrack(station)`, one per list of
draws, each paired with the state it leaves. -/
def consecutiveCalls (station : Station) :
    State → List (List ℚ) → Option (List (Option Track × State))
  | _, [] => some []
  | s, draws :: more =>
    match getNextTrack s station draws with
    | none => none
    | some (t, s1) =>
      match consecutiveCalls station s1 more with
      | none => none
      | some results => some ((t, s1) :: results)

/-! ## Audio pipeline -/

/-- How an awaited promise settles. `pending` means it has not settled: the
code after the `await` has not run. -/
inductive Settled where
  | resolved
  | rejected
  | pending
  deriving DecidableEq, Repr

/-- What the browser decides during one attempt to start playback. -/
structure PlayEnv where
  /-- The successive results of `Math.random()`. -/
  draws : List ℚ
  /-- The verdict of `canUseAudioGraphForUrl` (the `URL` parser) on a URL. -/
  graphEligible : String → Bool
  /-- Whether `window.AudioContext || window.webkitAudioContext` exists. -/
  audioContextClass : Bool
  /-- Whether an existing context reports `state === "suspended"`. -/
  ctxSuspended : Bool
  /-- How `audioCtx.resume()` settles. -/
  resume : Settled
  /-- Whether `createMediaElementSource(audio)` throws. -/
  createSourceThrows : Bool
  /-- How the first `audio.play()` settles. -/
  play : Settled
  /-- How the `audio.play()` of the fallback path settles. -/
  fallbackPlay : Settled

/-- The function `applyVolume()`. -/
def applyVolume (s : State) : State :=
  let nextVolume := s.volumeDialValue / 100
  if s.useAudioGraph = true ∧ s.gainNode.isSome = true then
    { s with gainNode := some nextVolume, audioVolume := 1 }
  else
    { s with audioVolume := nextVolume }

/-- The function `applyTone()`. -/
def applyTone (s : State) : State :=
  match s.toneFilter with
  | none => s
  | some _ =>
    let pct := s.toneDialValue / 100
    let frequency := 500 + pct * 11500
    { s with toneFilter := some frequency }

/-- The function `initAudioGraph()`, with how its promise settles. A new
low-pass filter starts at the Web Audio default of 350 Hz and a new gain node
at gain 1. -/
def initAudioGraph (s : State) (env : PlayEnv) : State × Settled :=
  let s := logCall s Call.initAudioGraph
  if s.useAudioGraph = false then (s, Settled.resolved)
  else if s.audioCtx = true then
    if env.ctxSuspended = true then (s, env.resume) else (s, Settled.resolved)
  else if env.audioContextClass = false then (s, Settled.resolved)
  else
    let s := { s with audioCtx := true }
    if env.createSourceThrows = true then
      ({ s with audioCtx := false, sourceNode := false, toneFilter := none,
                analyser := false, frequencyData := false, waveformData := false },
        Settled.resolved)
    else
      let s := { s with sourceNode := true, toneFilter := some 350, gainNode := some 1,
                        analyser := true, frequencyData := true, waveformData := true }
      (applyVolume (applyTone s), Settled.resolved)

/-- The statements `await initAudioGraph(); await audio.play();`: the state
they leave and how the sequence settles. `audio.play()` is only called once
`initAudioGraph()` has resolved. -/
def initThenPlay (s : State) (env : PlayEnv) : State × Settled :=
  match initAudioGraph s env with
  | (s1, Settled.resolved) => (logCall s1 Call.audioPlay, env.play)
  | (s1, r) => (s1, r)

/-! ## Playback controller -/

/-- The `url` of a track as assigned to `audio.src`. -/
def trackUrl : Track → Option String
  | Track.obj _ (UrlValue.str url) => some url
  | _ => none

/-- Truthiness of a value that is `null`, `undefined` or a track. -/
def trackTruthy : Option Track → Bool
  | some (Track.obj _ _) => true
  | _ => false

/-- The function `updateNowPlaying(track, station)`. -/
def updateNowPlaying (s : State) (track : Track) (station : Station) : State :=
  let title : String :=
    match track with
    | Track.obj (some t) _ => if t = "" then "Untitled Track" else t
    | _ => "Untitled Track"
  { s with trackTitle := title, trackMeta := station.name ++ " Station" }

/-- The statements run when a play start succeeds inside
`playFromCurrentStation` (lines 207-210, and lines 224-228 apart from the
helper text). -/
def markLive (s : State) (station : Station) : State :=
  let s := { s with consecutiveTrackErrors := 0 }
  let s := setStatus s ("Live: " ++ station.name) StatusMode.live
  { s with powerBtnText := "Pause", isPoweredOn := true }

/-- The end of the `catch` block of `playFromCurrentStation` (lines 234-237). -/
def markBlocked (s : State) : State :=
  let s := setStatus s "Click Power On to start audio." StatusMode.warn
  { s with helperText := "Your browser blocked autoplay. Press Power On again.",
           isPoweredOn := false, powerBtnText := "Power On" }

/-- Lines 199-238 of `playFromCurrentStation`: load the selected track and
try to start it, with the fallback without the audio graph. -/
def startTrack (s : State) (track : Track) (station : Station) (env : PlayEnv) : State :=
  let s := { s with currentTrack := some track }
  let s := updateNowPlaying s track station
  let s := { s with audioSrc := trackUrl track }
  let s := { s with useAudioGraph := (trackUrl track).elim false env.graphEligible }
  match initThenPlay s env with
  | (s, Settled.pending) => s
  | (s, Settled.resolved) => markLive s station
  | (s, Settled.rejected) =>
    if s.useAudioGraph = true then
      let s := { s with useAudioGraph := false, audioCtx := false, sourceNode := false,
                        toneFilter := none, gainNode := none, analyser := false,
                        frequencyData := false, waveformData := false }
      let s := logCall s Call.audioPlay
      match env.fallbackPlay with
      | Settled.pending => s
      | Settled.resolved =>
        { markLive s station with
          helperText :=
            "Audio graph unavailable for this track source. Using fallback visuals." }
      | Settled.rejected => markBlocked s
    else markBlocked s

/-- The function `playFromCurrentStation()`, run to completion; `none` when
the resampling loop of `getNextTrack` does not end on `env.draws`. -/
def playFromCurrentStation (s : State) (env : PlayEnv) : Option State :=
  let s := logCall s Call.playFromCurrentStation
  match getCurrentStation s with
  | none => some s
  | some station =>
    match getNextTrack s station env.draws with
    | none => none
    | some (some (Track.obj title url), s) =>
      some (startTrack s (Track.obj title url) station env)
    | some (_, s) =>
      let s := setStatus s "No valid tracks in this station." StatusMode.warn
      some { s with trackTitle := "-",
                    trackMeta := station.name ++ " has no valid URLs yet." }

/-- The function `togglePower()`; `paused` is the value of `audio.paused`
when it is read. -/
def togglePower (s : State) (paused : Bool) (env : PlayEnv) : Option State :=
  if paused = true then
    if trackTruthy s.currentTrack = false then playFromCurrentStation s env
    else
      match initThenPlay s env with
      | (s, Settled.pending) => some s
      | (s, Settled.resolved) =>
        match getCurrentStation s with
        | some station =>
          let s := setStatus s ("Live: " ++ station.name) StatusMode.live
          some { s with powerBtnText := "Pause", isPoweredOn := true }
        | none => some (setStatus s "Unable to start playback." StatusMode.warn)
      | (s, Settled.rejected) =>
        some (setStatus s "Unable to start playback." StatusMode.warn)
  else
    let s := logCall s Call.audioPause
    let s := { s with powerBtnText := "Power On" }
    let s := setStatus s "Paused." StatusMode.idle
    some { s with isPoweredOn := false }

/-! ## Station navigation -/

/-- The function `renderStationLabels()`: one label per station, with the
`active` class on the one at `stationIndex`. -/
def renderStationLabels (s : State) : State :=
  { s with stationLabels :=
      s.stations.enum.map (fun p => (p.2.name, decide ((p.1 : Int) = s.stationIndex))) }

/-- The function `handleStationChange(index)` for an integer `index`. -/
def handleStationChange (s : State) (index : Int) (env : PlayEnv) : Option State :=
  if s.stations.length = 0 then some s
  else
    let clamped := clampInt 0 ((s.stations.length : Int) - 1) index
    let s := { s with stationIndex := clamped }
    let s := { s with stationDialValue := (clamped : ℚ) }
    let s := renderStationLabels s
    if s.isPoweredOn = true then playFromCurrentStation s env
    else
      match getCurrentStation s with
      | some station =>
        some { s with trackMeta := station.name ++ " selected. Press Power On." }
      | none => some s

/-- The function `updateStationPreviewFromSlider()`. -/
def updateStationPreviewFromSlider (s : State) : State :=
  if s.stations.length = 0 then s
  else
    let nearest := jsRound s.stationDialValue
    let clamped := clampInt 0 ((s.stations.length : Int) - 1) nearest
    if clamped ≠ s.stationIndex then
      renderStationLabels { s with stationIndex := clamped }
    else s

/-- The function `animateStationDialTo(targetIndex, onComplete)` up to its
first `requestAnimationFrame`; `now` is `performance.now()`. Both callers pass
`() => handleStationChange(target)` as `onComplete`. -/
def animateStationDialTo (s : State) (targetIndex : Int) (now : ℚ) : State :=
  { s with stationSnapAnimating := true,
           pendingSnap := some { start := s.stationDialValue, target := targetIndex,
                                 startedAt := now } }

/-- One run of the `tick` closure of `animateStationDialTo` at frame time
`now`. -/
def snapTick (s : State) (now : ℚ) (env : PlayEnv) : Option State :=
  match s.pendingSnap with
  | none => some s
  | some a =>
    let durationMs : ℚ := 220
    let t := min 1 ((now - a.startedAt) / durationMs)
    let eased := 1 - (1 - t) ^ 3
    let s := { s with stationDialValue := a.start + ((a.target : ℚ) - a.start) * eased }
    let s := updateStationPreviewFromSlider s
    if t < 1 then some s
    else
      let s := { s with stationDialValue := (a.target : ℚ) }
      let s := { s with stationSnapAnimating := false, pendingSnap := none }
      handleStationChange s a.target env

/-- The function `commitStationDialSelection()`. -/
def commitStationDialSelection (s : State) (now : ℚ) : State :=
  if s.stations.length = 0 ∨ s.stationSnapAnimating = true then s
  else
    let target := clampInt 0 ((s.stations.length : Int) - 1) (jsRound s.stationDialValue)
    animateStationDialTo s target now

/-- The function `tuneToStation(index)` for an integer `index`. -/
def tuneToStation (s : State) (index : Int) (now : ℚ) : State :=
  if s.stations.length = 0 ∨ s.stationSnapAnimating = true then s
  else
    let target := clampInt 0 ((s.stations.length : Int) - 1) index
    animateStationDialTo s target now

/-! ## Event handlers -/

/-- The `maxSkips` of the audio `error` listener for a count of valid tracks. -/
def maxSkipsOf (stationTrackCount : Nat) : Nat :=
  max 2 (min 6 (if stationTrackCount = 0 then 2 else stationTrackCount))

/-- The listener of the audio element's `error` event (lines 531-549). -/
def onAudioError (s : State) (env : PlayEnv) : Option State :=
  let s := { s with consecutiveTrackErrors := s.consecutiveTrackErrors + 1 }
  let stationTrackCount :=
    match getCurrentStation s with
    | some station => (validTracksOf station).length
    | none => 0
  let maxSkips := maxSkipsOf stationTrackCount
  if s.consecutiveTrackErrors ≥ maxSkips then
    let s := logCall s Call.audioPause
    let s := { s with isPoweredOn := false, powerBtnText := "Power On" }
    let s := setStatus s "Playback failed repeatedly for this station." StatusMode.warn
    some { s with helperText :=
      "Tracks are reachable, so this is likely a browser/CORS issue. Try another station or refresh." }
  else
    let s := setStatus s "Track failed to play. Scanning next..." StatusMode.warn
    playFromCurrentStation s env

/-- The listener of the audio element's `ended` event. -/
def onAudioEnded (s : State) (env : PlayEnv) : Option State :=
  playFromCurrentStation s env

/-- The click listener of the next button. -/
def onNextClick (s : State) (env : PlayEnv) : Option State :=
  if s.stations.length = 0 then some s else playFromCurrentStation s env

/-- The click listener of the shuffle button. -/
def onShuffleClick (s : State) : State :=
  let s := { s with isShuffle := !s.isShuffle }
  { s with shuffleBtnText := "Shuffle: " ++ (if s.isShuffle = true then "On" else "Off") }

/-- The `input` listener of the station dial, the dial being at `value`. -/
def onStationDialInput (s : State) (value : ℚ) : State :=
  updateStationPreviewFromSlider { s with stationDialValue := value }

/-- The click listener of the station labels, for a label whose
`data-station-index` holds the integer `index`. -/
def onStationLabelClick (s : State) (index : Int) (now : ℚ) : State :=
  tuneToStation s index now

/-- A station entry of `stations.json` before normalisation. -/
structure RawStation where
  id : Option String
  name : Option String
  tracks : Option (List Track)

/-- The function `validateStationData(data)`; `data` is `none` when it is not
an object with a `stations` array. A missing or empty `id` or `name` is falsy. -/
def validateStationData (data : Option (List RawStation)) : Except String (List Station) :=
  match data with
  | none => Except.error "stations.json must include at least one station."
  | some [] => Except.error "stations.json must include at least one station."
  | some (st :: more) =>
    Except.ok ((st :: more).enum.map (fun p =>
      { id := match p.2.id with
              | some i => if i = "" then "station-" ++ toString p.1 else i
              | none => "station-" ++ toString p.1,
        name := match p.2.name with
                | some n => if n = "" then "Station " ++ toString (p.1 + 1) else n
                | none => "Station " ++ toString (p.1 + 1),
        tracks := p.2.tracks.getD [] }))

/-- What the `fetch` of `stations.json` produced. -/
inductive LoadResult where
  | failed (message : String)
  | loaded (data : Option (List RawStation))

/-- The function `loadStations()`. -/
def loadStations (s : State) (r : LoadResult) : State :=
  match r with
  | LoadResult.failed message =>
    { setStatus s "Could not load stations." StatusMode.warn with helperText := message }
  | LoadResult.loaded data =>
    match validateStationData data with
    | Except.error message =>
      { setStatus s "Could not load stations." StatusMode.warn with helperText := message }
    | Except.ok stations =>
      let s := { s with stations := stations }
      let s := { s with stationDialValue := 0, controlsEnabled := true }
      let s := renderStationLabels s
      let s := setStatus s ("Ready: " ++ toString s.stations.length ++ " stations loaded.")
        StatusMode.idle
      { s with helperText := "Press Power On to start Wrenasmir Wradio." }

/-- The events the page reacts to, each with what the browser supplies. -/
inductive Event where
  | powerClick (paused : Bool) (env : PlayEnv)
  | nextClick (env : PlayEnv)
  | shuffleClick
  | stationDialInput (value : ℚ)
  | stationDialCommit (now : ℚ)
  | stationLabelClick (index : Int) (now : ℚ)
  | snapFrame (now : ℚ) (env : PlayEnv)
  | volumeInput (value : ℚ)
  | toneInput (value : ℚ)
  | audioEnded (env : PlayEnv)
  | audioError (env : PlayEnv)
  | stationsFetched (r : LoadResult)

/-- The listener run for an event; `none` when a resampling loop does not end. -/
def step (s : State) : Event → Option State
  | Event.powerClick paused env => togglePower s paused env
  | Event.nextClick env => onNextClick s env
  | Event.shuffleClick => some (onShuffleClick s)
  | Event.stationDialInput value => some (onStationDialInput s value)
  | Event.stationDialCommit now => some (commitStationDialSelection s now)
  | Event.stationLabelClick index now => some (onStationLabelClick s index now)
  | Event.snapFrame now env => snapTick s now env
  | Event.volumeInput value => some (applyVolume { s with volumeDialValue := value })
  | Event.toneInput value => some (applyTone { s with toneDialValue := value })
  | Event.audioEnded env => onAudioEnded s env
  | Event.audioError env => onAudioError s env
  | Event.stationsFetched r => some (loadStations s r)

/-- The states the page can be in: those reached from the initial state by
finitely many events. -/
inductive Reachable : State → Prop where
  | init (volumeDial toneDial : ℚ) :
      Reachable (applyVolume (initialState volumeDial toneDial))
  | next (s s1 : State) (e : Event) : Reachable s → step s e = some s1 → Reachable s1

/-- The state after a sequence of events; `none` when a listener does not
return. -/
def runEvents : State → List Event → Option State
  | s, [] => some s
  | s, e :: more =>
    match step s e with
    | none => none
    | some s1 => runEvents s1 more

/-- The states left by consecutive audio `error` events, one per element of
the list, nothing else happening in between. -/
def errorRun : State → List PlayEnv → Option (List State)
  | _, [] => some []
  | s, env :: more =>
    match onAudioError s env with
    | none => none
    | some s1 =>
      match errorRun s1 more with
      | none => none
      | some rest => some (s1 :: rest)

/-- The number of valid tracks of the current station, 0 without one: the
`stationTrackCount` of the audio `error` listener. -/
def stationTrackCount (s : State) : Nat :=
  match getCurrentStation s with
  | some station => (validTracksOf station).length
  | none => 0

/-- The invariant of the specification on the station index:
`stationIndex ∈ [0, stations.length - 1]`. -/
def stationIndexInRange (s : State) : Prop :=
  0 ≤ s.stationIndex ∧ s.stationIndex ≤ (s.stations.length : Int) - 1

/-! ## Visualizer

The visualizer fields are kept apart from `State` so that they can range over
any ordered field `α` (`ℚ` to compute, `ℝ` with the real sine); `Math.sin` is
the parameter `sin`. Canvas drawing and `requestAnimationFrame` bookkeeping
are not modelled. Decimal literals stand for their exact values. -/

/-- The visualizer's part of `state`: `visualSeed`, and the height in percent
of each element of `eqBars`. -/
structure Visual (α : Type) where
  visualSeed : α
  barHeights : List α

/-- What one frame reads from the browser: `audio.paused`,
`audio.currentTime || 0` and the bytes `getByteFrequencyData` delivers. -/
structure FrameEnv (α : Type) where
  paused : Bool
  currentTime : α
  frequencyBytes : List Nat

/-- The function `drawIdleScope(width, height)`, as far as `state` goes. -/
def drawIdleScope {α : Type} [LinearOrderedField α] (v : Visual α) : Visual α :=
  { v with visualSeed := v.visualSeed + 25 / 1000 }

/-- The bar heights set by the idle branch of `animateVisualizer`
(lines 462-465). -/
def idleBars {α : Type} [LinearOrderedField α] (sin : α → α) (visualSeed : α)
    (count : Nat) : List α :=
  (List.range count).map (fun (index : Nat) =>
    let idle := 14 + sin (visualSeed + (index : α) * (7 / 10)) * 6
    max 8 idle)

/-- The bar heights set by `drawLiveScope` when analyser data is missing
(lines 404-407). -/
def syntheticBars {α : Type} [LinearOrderedField α] (sin : α → α) (t : α)
    (count : Nat) : List α :=
  (List.range count).map (fun (index : Nat) =>
    let movement := 30 + sin (t * 4 + (index : α) * (8 / 10)) * 24
      + sin (t * (16 / 10) + (index : α)) * 10
    max 10 (min 100 movement))

/-- The bar heights set by `drawLiveScope` from analyser data (lines 441-452),
for a non-zero `barCount`. -/
def liveBars {α : Type} [LinearOrderedField α] (frequencyData : List Nat)
    (barCount : Nat) : List α :=
  let bucket := if frequencyData.length / barCount = 0 then 1
    else frequencyData.length / barCount
  (List.range barCount).map (fun (i : Nat) =>
    let total : Nat := ((List.range bucket).map (fun (j : Nat) =>
      frequencyData.getD (i * bucket + j) 0)).sum
    let average : α := (total : α) / (bucket : α)
    max 8 (min 100 (average / 255 * 100)))

/-- The function `drawLiveScope(width, height)`, as far as the bars go. -/
def drawLiveScope {α : Type} [LinearOrderedField α] (sin : α → α) (s : State)
    (env : FrameEnv α) (v : Visual α) : Visual α :=
  if s.analyser = false ∨ s.frequencyData = false ∨ s.waveformData = false then
    { v with barHeights := syntheticBars sin env.currentTime v.barHeights.length }
  else if v.barHeights.length = 0 then v
  else { v with barHeights := liveBars env.frequencyBytes v.barHeights.length }

/-- The function `animateVisualizer()`: one frame. -/
def animateVisualizer {α : Type} [LinearOrderedField α] (sin : α → α) (s : State)
    (env : FrameEnv α) (v : Visual α) : Visual α :=
  if s.isPoweredOn = true ∧ env.paused = false then drawLiveScope sin s env v
  else
    let v := drawIdleScope v
    { v with barHeights := idleBars sin v.visualSeed v.barHeights.length }

/-! ## Definitions of the specification -/

/-- The specification's `toneFrequency(pct) = 500 + pct/100 × 11500`. -/
def toneFrequency (pct : ℚ) : ℚ :=
  500 + pct / 100 * 11500

/-- The specification's validity of a URL: a string that begins with an
absolute `http` or `https` scheme. -/
def hasHttpScheme (url : String) : Bool :=
  jsStartsWith url "http://" || jsStartsWith url "https://"

/-- The specification's validity of a track: its `url` is a string with an
absolute `http`/`https` scheme. -/
def specValidTrack : Track → Bool
  | Track.obj _ (UrlValue.str url) => hasHttpScheme url
  | _ => false

/-! ## Example inputs -/

/-- An example track with an `https` URL. -/
def trackA : Track := Track.obj (some "A") (UrlValue.str "https://h/a.mp3")

/-- An example track with an `https` URL. -/
def trackB : Track := Track.obj (some "B") (UrlValue.str "https://h/b.mp3")

/-- An example track with an `http` URL. -/
def trackC : Track := Track.obj (some "C") (UrlValue.str "http://h/c.mp3")

/-- An example track that `sanitizeTrack` refuses. -/
def trackFtp : Track := Track.obj (some "X") (UrlValue.str "ftp://h/x.mp3")

/-- An example station with three valid tracks among four. -/
def stationABC : Station :=
  { id := "s1", name := "One", tracks := [trackA, trackFtp, trackB, trackC] }

/-- An example station with two valid tracks. -/
def stationAB : Station :=
  { id := "s2", name := "Two", tracks := [trackA, trackB] }

/-- An example station with two valid tracks whose id names a function
inherited from `Object.prototype`. -/
def stationConstructor : Station :=
  { id := "constructor", name := "Four", tracks := [trackA, trackB] }

/-- An example station with two valid tracks whose id is `__proto__`. -/
def stationProto : Station :=
  { id := "__proto__", name := "Five", tracks := [trackA, trackB] }

/-- An example station without a valid track. -/
def stationNone : Station :=
  { id := "s3", name := "Three", tracks := [trackFtp, Track.falsy] }

/-- The initial state in sequential mode. -/
def sequentialState : State :=
  { initialState 80 50 with isShuffle := false }

/-- The example station with two valid tracks loaded, sequential mode, powered
on with its first track current. -/
def liveStateAB : State :=
  { sequentialState with
    stations := [stationAB], currentTrack := some trackA, isPoweredOn := true,
    lastTrackByStation := [("s2", JsNum.int 0)] }

/-- The initial state with two example stations loaded. -/
def loadedState : State :=
  { initialState 80 50 with stations := [stationABC, stationAB] }

/-- An example environment: the given draws, no audio graph support, and the
given outcomes of the two `audio.play()` calls. -/
def envOf (draws : List ℚ) (play fallbackPlay : Settled) : PlayEnv :=
  { draws := draws, graphEligible := fun _ => true, audioContextClass := false,
    ctxSuspended := false, resume := Settled.resolved, createSourceThrows := false,
    play := play, fallbackPlay := fallbackPlay }

/-- An example session: the stations are fetched, sequential mode is chosen,
Power On starts playback, an audio error occurs whose retry the browser
refuses, and Power On is pressed again and resumes the loaded track. -/
def resumeAfterErrorEvents : List Event :=
  [ Event.stationsFetched (LoadResult.loaded
      (some [{ id := some "s2", name := some "Two", tracks := some [trackA, trackB] }])),
    Event.shuffleClick,
    Event.powerClick true (envOf [] Settled.resolved Settled.resolved),
    Event.audioError (envOf [] Settled.rejected Settled.rejected),
    Event.powerClick true (envOf [] Settled.resolved Settled.resolved) ]

/-! ## Lemmas on the helpers -/

theorem ownGet_ownSet_same (h : List (String × JsNum)) (key : String) (v : JsNum) :
    ownGet (ownSet h key v) key = some v := by
  induction h with
  | nil => simp [ownSet, ownGet]
  | cons p rest ih =>
    obtain ⟨k, w⟩ := p
    by_cases hk : k = key
    · simp [ownSet, ownGet, hk]
    · simp [ownSet, ownGet, hk, ih]

theorem ownGet_ownSet_other (h : List (String × JsNum)) (key other : String) (v : JsNum)
    (hne : other ≠ key) : ownGet (ownSet h key v) other = ownGet h other := by
  induction h with
  | nil =>
    have : ¬ key = other := fun e => hne e.symm
    simp [ownSet, ownGet, this]
  | cons p rest ih =>
    obtain ⟨k, w⟩ := p
    by_cases hk : k = key
    · have : ¬ key = other := fun e => hne e.symm
      simp [ownSet, ownGet, hk, this]
    · by_cases ho : k = other
      · subst ho
        simp [ownSet, ownGet, hk]
      · simp [ownSet, ownGet, hk, ho, ih]

/-- A number assigned under a key other than `__proto__` is read back. -/
theorem histGet_histSet_same (h : List (String × JsNum)) (key : String) (v : JsNum)
    (hkey : key ≠ "__proto__") : histGet (histSet h key v) key = HistoryValue.num v := by
  simp only [histGet, histSet, hkey, if_false, ownGet_ownSet_same]

/-- An assignment leaves what is read under the other keys. -/
theorem histGet_histSet_other (h : List (String × JsNum)) (key other : String) (v : JsNum)
    (hne : other ≠ key) : histGet (histSet h key v) other = histGet h other := by
  unfold histGet histSet
  by_cases hk : key = "__proto__"
  · simp only [hk, if_true]
  · simp only [hk, if_false, ownGet_ownSet_other h key other v hne]

/-- An assignment under the key `__proto__` changes nothing, and reading that
key always gives the inherited prototype. -/
theorem histSet_proto (h : List (String × JsNum)) (v : JsNum) :
    histSet h "__proto__" v = h ∧ histGet h "__proto__" = HistoryValue.inherited := by
  simp [histSet, histGet]

/-- A key that reads as `undefined` or as a number is not `__proto__`. -/
theorem key_ne_proto_of_histGet (h : List (String × JsNum)) (key : String)
    (hv : histGet h key ≠ HistoryValue.inherited) : key ≠ "__proto__" := by
  intro hk
  apply hv
  simp [histGet, hk]

theorem jsIndex_natCast {α : Type} (xs : List α) (n : Nat) :
    jsIndex xs (n : Int) = xs[n]? := by
  simp [jsIndex]

theorem jsIndex_mem {α : Type} (xs : List α) (i : Int) (x : α)
    (h : jsIndex xs i = some x) : x ∈ xs := by
  unfold jsIndex at h
  split at h
  · exact List.getElem?_mem h
  · exact absurd h (by simp)

theorem jsIndexNum_mem {α : Type} (xs : List α) (n : JsNum) (x : α)
    (h : jsIndexNum xs n = some x) : x ∈ xs := by
  cases n with
  | int i => exact jsIndex_mem xs i x h
  | nan => exact absurd h (by simp [jsIndexNum])

theorem jsStartsWith_trans (s p q : String) (hq : jsStartsWith p q = true)
    (hp : jsStartsWith s p = true) : jsStartsWith s q = true := by
  simp only [jsStartsWith, List.isPrefixOf_iff_prefix] at *
  exact hq.trans hp

theorem hasHttpScheme_startsWith_http (url : String) (h : hasHttpScheme url = true) :
    jsStartsWith url "http" = true := by
  simp only [hasHttpScheme, Bool.or_eq_true] at h
  rcases h with h | h
  · exact jsStartsWith_trans url "http://" "http" (by decide) h
  · exact jsStartsWith_trans url "https://" "http" (by decide) h

theorem mem_validTracksOf (station : Station) (t : Track) :
    t ∈ validTracksOf station ↔ t ∈ station.tracks ∧ sanitizeTrack t = true := by
  simp [validTracksOf, List.mem_filter]

/-- Whatever `getNextTrack` returns is an element of the filtered list. -/
theorem getNextTrack_mem (s s1 : State) (station : Station) (draws : List ℚ) (t : Track)
    (h : getNextTrack s station draws = some (some t, s1)) : t ∈ validTracksOf station := by
  unfold getNextTrack at h
  simp only at h
  split at h
  · simp at h
  · split at h
    · simp only [Option.some.injEq, Prod.mk.injEq] at h
      exact jsIndexNum_mem _ _ _ h.1
    · split at h
      · simp only [Option.some.injEq, Prod.mk.injEq] at h
        exact jsIndex_mem _ _ _ h.1
      · split at h
        · simp at h
        · split at h
          · simp at h
          · simp only [Option.some.injEq, Prod.mk.injEq] at h
            exact jsIndex_mem _ _ _ h.1

/-- In sequential mode `getNextTrack` always returns: it selects the index
`((lastIndex ?? -1) + 1) % length` and stores it. -/
theorem getNextTrack_sequential (s : State) (station : Station) (draws : List ℚ)
    (hseq : s.isShuffle = false) (hlen : (validTracksOf station).length ≠ 0) :
    getNextTrack s station draws =
      some (jsIndexNum (validTracksOf station)
              (nextSequentialIndex (histGet s.lastTrackByStation station.id)
                (validTracksOf station).length),
            { logCall s Call.getNextTrack with
              lastTrackByStation := histSet s.lastTrackByStation station.id
                (nextSequentialIndex (histGet s.lastTrackByStation station.id)
                  (validTracksOf station).length) }) := by
  unfold getNextTrack
  simp only [hlen, if_false, logCall, hseq, if_true]

/-- The next sequential index after a stored index `m`. -/
theorem nextSequentialIndex_num (m length : Nat) :
    nextSequentialIndex (HistoryValue.num (JsNum.int (m : Int))) length =
      JsNum.int (((m + 1) % length : Nat) : Int) := by
  have h : ((m : Int) + 1) = ((m + 1 : Nat) : Int) := by push_cast; rfl
  simp only [nextSequentialIndex]
  rw [h, ← Int.ofNat_tmod]

/-- The first sequential index, nothing being stored. -/
theorem nextSequentialIndex_undefined (length : Nat) :
    nextSequentialIndex HistoryValue.undefined length = JsNum.int ((0 % length : Nat) : Int) := by
  have h : ((-1 : Int) + 1) = ((0 : Nat) : Int) := by decide
  simp only [nextSequentialIndex]
  rw [h, ← Int.ofNat_tmod]

/-- Sequential selection for a station whose id is not `__proto__`, from a
state whose next sequential index is `c` modulo the count: the calls return
the valid tracks `c, c+1, ...` modulo the count and store those indices. -/
theorem consecutiveCalls_sequential (station : Station) (hkey : station.id ≠ "__proto__")
    (drawss : List (List ℚ)) :
    ∀ (s : State) (c : Nat), s.isShuffle = false →
      (validTracksOf station).length ≠ 0 →
      nextSequentialIndex (histGet s.lastTrackByStation station.id)
          (validTracksOf station).length =
        JsNum.int ((c % (validTracksOf station).length : Nat) : Int) →
      ∃ results, consecutiveCalls station s drawss = some results ∧
        results.length = drawss.length ∧
        ∀ k, k < drawss.length →
          ∃ t sk, (validTracksOf station)[(c + k) % (validTracksOf station).length]? = some t ∧
            results[k]? = some (some t, sk) ∧
            histGet sk.lastTrackByStation station.id =
              HistoryValue.num
                (JsNum.int (((c + k) % (validTracksOf station).length : Nat) : Int)) := by
  induction drawss with
  | nil =>
    intro s c _ _ _
    exact ⟨[], rfl, rfl, fun k hk => absurd hk (by simp)⟩
  | cons draws more ih =>
    intro s c hseq hlen hidx
    have hpos : 0 < (validTracksOf station).length := Nat.pos_of_ne_zero hlen
    have hstep := getNextTrack_sequential s station draws hseq hlen
    rw [hidx] at hstep
    have hlt : c % (validTracksOf station).length < (validTracksOf station).length :=
      Nat.mod_lt _ hpos
    obtain ⟨s1, hs1, hstep⟩ : ∃ s1 : State,
        s1 = { logCall s Call.getNextTrack with
                lastTrackByStation := histSet s.lastTrackByStation station.id
                  (JsNum.int ((c % (validTracksOf station).length : Nat) : Int)) } ∧
        getNextTrack s station draws =
          some (jsIndexNum (validTracksOf station)
            (JsNum.int ((c % (validTracksOf station).length : Nat) : Int)), s1) :=
      ⟨_, rfl, hstep⟩
    have hseq1 : s1.isShuffle = false := by rw [hs1]; exact hseq
    have hhist1 : s1.lastTrackByStation = histSet s.lastTrackByStation station.id
        (JsNum.int ((c % (validTracksOf station).length : Nat) : Int)) := by rw [hs1]
    clear hs1
    obtain ⟨results, hres, hlenres, hall⟩ :=
      ih s1 (c + 1) hseq1 hlen
        (by
          rw [hhist1, histGet_histSet_same _ _ _ hkey, nextSequentialIndex_num]
          congr 2
          rw [Nat.add_mod, Nat.mod_mod, ← Nat.add_mod])
    refine ⟨(jsIndexNum (validTracksOf station)
        (JsNum.int ((c % (validTracksOf station).length : Nat) : Int)), s1) :: results,
      by simp only [consecutiveCalls, hstep, hres], by simp [hlenres], ?_⟩
    intro k hk
    cases k with
    | zero =>
      refine ⟨(validTracksOf station)[c % (validTracksOf station).length], s1, ?_, ?_, ?_⟩
      · simp [List.getElem?_eq_getElem hlt]
      · simp only [List.getElem?_cons_zero, jsIndexNum, jsIndex_natCast,
          List.getElem?_eq_getElem hlt]
      · simp only [hhist1, histGet_histSet_same _ _ _ hkey, Nat.add_zero]
    | succ j =>
      obtain ⟨t, sk, h1, h2, h3⟩ := hall j (by simpa using hk)
      refine ⟨t, sk, ?_, ?_, ?_⟩
      · rw [← h1]; congr 2; omega
      · simpa using h2
      · rw [h3]; congr 4; omega

/-- C4 (counterexample). Two tracks whose URLs do not begin with an absolute
`http`/`https` scheme, one with the scheme `httpx:` and one a relative path,
are accepted by `sanitizeTrack`, and `getNextTrack` returns the relative one. -/
theorem sanitizeTrack_accepts_without_http_scheme :
    sanitizeTrack (Track.obj none (UrlValue.str "httpx://host/a.mp3")) = true ∧
    specValidTrack (Track.obj none (UrlValue.str "httpx://host/a.mp3")) = false ∧
    sanitizeTrack (Track.obj none (UrlValue.str "http-archive/a.mp3")) = true ∧
    specValidTrack (Track.obj none (UrlValue.str "http-archive/a.mp3")) = false ∧
    ¬ (sanitizeTrack (Track.obj none (UrlValue.str "http-archive/a.mp3")) = true ↔
        specValidTrack (Track.obj none (UrlValue.str "http-archive/a.mp3")) = true) ∧
    (getNextTrack sequentialState
        { id := "s1", name := "One",
          tracks := [Track.obj none (UrlValue.str "http-archive/a.mp3")] } []).map Prod.fst
      = some (some (Track.obj none (UrlValue.str "http-archive/a.mp3"))) := by
  refine ⟨by decide, by decide, by decide, by decide, by decide, ?_⟩
  rfl

/-- C4 (amended). `sanitizeTrack` accepts exactly the truthy tracks whose `url`
is a string beginning with the four characters `http`; every track with an
absolute `http://` or `https://` URL is accepted; and whatever track
`getNextTrack` returns is an accepted track of the station, so a track whose
URL does not begin with `http` is never returned. -/
theorem sanitizeTrack_iff_starts_with_http :
    (∀ t : Track, sanitizeTrack t = true ↔
        ∃ title url, t = Track.obj title (UrlValue.str url) ∧ jsStartsWith url "http" = true) ∧
    (∀ t : Track, specValidTrack t = true → sanitizeTrack t = true) ∧
    (∀ (s s1 : State) (station : Station) (draws : List ℚ) (t : Track),
        getNextTrack s station draws = some (some t, s1) →
          t ∈ station.tracks ∧ sanitizeTrack t = true) ∧
    (∀ (s s1 : State) (station : Station) (draws : List ℚ) (title : Option String)
        (url : String), jsStartsWith url "http" = false →
          getNextTrack s station draws ≠ some (some (Track.obj title (UrlValue.str url)), s1)) := by
  have h3 : ∀ (s s1 : State) (station : Station) (draws : List ℚ) (t : Track),
      getNextTrack s station draws = some (some t, s1) →
        t ∈ station.tracks ∧ sanitizeTrack t = true := fun s s1 station draws t h =>
    (mem_validTracksOf station t).1 (getNextTrack_mem s s1 station draws t h)
  refine ⟨?_, ?_, h3, ?_⟩
  · intro t
    constructor
    · intro h
      match t, h with
      | Track.obj title (UrlValue.str url), h => exact ⟨title, url, rfl, h⟩
    · rintro ⟨title, url, rfl, h⟩
      exact h
  · intro t h
    match t, h with
    | Track.obj title (UrlValue.str url), h => exact hasHttpScheme_startsWith_http url h
  · intro s s1 station draws title url hurl h
    have := (h3 s s1 station draws _ h).2
    simp [sanitizeTrack, hurl] at this

/-- C4 (witness). The amended statement at concrete inputs: an `https` track is
accepted, an `ftp` track is refused, and selection from a station holding both
returns the `https` one. -/
theorem sanitizeTrack_iff_starts_with_http_witness :
    sanitizeTrack trackA = true ∧
    sanitizeTrack trackFtp = false ∧
    getNextTrack sequentialState stationABC [] ≠
      some (some (Track.obj (some "X") (UrlValue.str "ftp://h/x.mp3")), sequentialState) :=
  ⟨sanitizeTrack_iff_starts_with_http.2.1 _ (by decide), by decide,
   sanitizeTrack_iff_starts_with_http.2.2.2 _ _ _ _ _ _ (by decide)⟩

/-- X1. Sequential mode cycles in order when nothing is inherited under the
station id. For a station with `N ≥ 1` valid tracks whose id reads as
`undefined` in the history object, with `isShuffle = false`, consecutive calls
of `getNextTrack` all return; call number `k + 1` returns the valid track at
`k mod N` and leaves that index in the history. Hence the tracks returned by
any `N` consecutive calls are the valid tracks rotated, a permutation of them,
and calls `N` apart return the same track. -/
theorem sequential_mode_cycles_in_order (s : State) (station : Station)
    (drawss : List (List ℚ))
    (hN : 1 ≤ (validTracksOf station).length)
    (hno : histGet s.lastTrackByStation station.id = HistoryValue.undefined)
    (hseq : s.isShuffle = false) :
    ∃ results, consecutiveCalls station s drawss = some results ∧
      results.length = drawss.length ∧
      (∀ k, k < drawss.length →
        ∃ t sk, (validTracksOf station)[k % (validTracksOf station).length]? = some t ∧
          results[k]? = some (some t, sk) ∧
          histGet sk.lastTrackByStation station.id =
            HistoryValue.num (JsNum.int ((k % (validTracksOf station).length : Nat) : Int))) ∧
      (∀ k, k + (validTracksOf station).length ≤ drawss.length →
        ((results.drop k).take (validTracksOf station).length).map Prod.fst =
            ((validTracksOf station).rotate (k % (validTracksOf station).length)).map some ∧
        List.Perm (((results.drop k).take (validTracksOf station).length).map Prod.fst)
            ((validTracksOf station).map some)) ∧
      (∀ k, k + (validTracksOf station).length < drawss.length →
        (results[k]?).map Prod.fst = (results[k + (validTracksOf station).length]?).map Prod.fst) := by
  have hlen : (validTracksOf station).length ≠ 0 := by omega
  have hkey : station.id ≠ "__proto__" :=
    key_ne_proto_of_histGet s.lastTrackByStation station.id (by rw [hno]; simp)
  obtain ⟨results, hres, hlenres, hall⟩ :=
    consecutiveCalls_sequential station hkey drawss s 0 hseq hlen
      (by rw [hno, nextSequentialIndex_undefined])
  have hall2 : ∀ k, k < drawss.length →
      ∃ t sk, (validTracksOf station)[k % (validTracksOf station).length]? = some t ∧
        results[k]? = some (some t, sk) ∧
        histGet sk.lastTrackByStation station.id =
          HistoryValue.num (JsNum.int ((k % (validTracksOf station).length : Nat) : Int)) := by
    intro k hk
    simpa using hall k hk
  have hwin : ∀ k, k + (validTracksOf station).length ≤ drawss.length →
      ((results.drop k).take (validTracksOf station).length).map Prod.fst =
        ((validTracksOf station).rotate (k % (validTracksOf station).length)).map some := by
    intro k hk
    apply List.ext_getElem?
    intro n
    by_cases hn : n < (validTracksOf station).length
    · obtain ⟨t, sk, h1, h2, _⟩ := hall2 (k + n) (by omega)
      have hrot : (n + k % (validTracksOf station).length) % (validTracksOf station).length
          = (k + n) % (validTracksOf station).length := by
        rw [Nat.add_mod, Nat.mod_mod, ← Nat.add_mod, Nat.add_comm]
      simp only [List.getElem?_map, List.getElem?_take, hn, if_true, List.getElem?_drop, h2,
        List.getElem?_rotate hn, hrot, h1, Option.map_some']
    · have h1 : (((results.drop k).take (validTracksOf station).length).map Prod.fst).length ≤ n := by
        simp only [List.length_map, List.length_take, List.length_drop]
        omega
      have h2 : (((validTracksOf station).rotate (k % (validTracksOf station).length)).map
          some).length ≤ n := by
        simp only [List.length_map, List.length_rotate]
        omega
      rw [List.getElem?_eq_none_iff.2 h1, List.getElem?_eq_none_iff.2 h2]
  refine ⟨results, hres, hlenres, hall2, ?_, ?_⟩
  · intro k hk
    refine ⟨hwin k hk, ?_⟩
    rw [hwin k hk]
    exact (List.rotate_perm _ _).map some
  · intro k hk
    obtain ⟨t, sk, h1, h2, _⟩ := hall2 k (by omega)
    obtain ⟨t2, sk2, h3, h4, _⟩ := hall2 (k + (validTracksOf station).length) hk
    rw [Nat.add_mod_right, h1] at h3
    rw [h2, h4]
    simp only [Option.map_some', Option.some.injEq]
    exact Option.some.inj h3

/-- X1 (witness). Three valid tracks among four, seven sequential calls from
the initial state: the calls return A, B, C, A, B, C, A. -/
theorem sequential_mode_cycles_in_order_witness :
    ∃ results,
      consecutiveCalls stationABC sequentialState [[], [], [], [], [], [], []] = some results ∧
      results.map Prod.fst =
        [some trackA, some trackB, some trackC, some trackA, some trackB, some trackC,
         some trackA] := by
  obtain ⟨results, hres, _, _, _, _⟩ :=
    sequential_mode_cycles_in_order sequentialState stationABC [[], [], [], [], [], [], []]
      (by decide) (by decide) (by decide)
  refine ⟨results, hres, ?_⟩
  have hval : (consecutiveCalls stationABC sequentialState
      [[], [], [], [], [], [], []]).map (List.map Prod.fst) =
      some [some trackA, some trackB, some trackC, some trackA, some trackB, some trackC,
         some trackA] := rfl
  rw [hres] at hval
  simpa using hval

/-- C1 (the failing input). From the initial history `{}`, in sequential mode,
for the example station with id `constructor` and two valid tracks: reading the
history gives the inherited `Object` function, the next index is `NaN`, and
each of three consecutive calls returns `undefined` and leaves `NaN` in the
history, where the claim has them return the tracks A, B, A. -/
theorem sequential_mode_fails_under_inherited_key :
    sequentialState.lastTrackByStation = [] ∧
    validTracksOf stationConstructor = [trackA, trackB] ∧
    histGet sequentialState.lastTrackByStation stationConstructor.id =
      HistoryValue.inherited ∧
    (consecutiveCalls stationConstructor sequentialState [[], [], []]).map
        (List.map (fun p => (p.1, histGet p.2.lastTrackByStation stationConstructor.id))) =
      some [(none, HistoryValue.num JsNum.nan), (none, HistoryValue.num JsNum.nan),
            (none, HistoryValue.num JsNum.nan)] := by
  refine ⟨rfl, by decide, by decide, by decide⟩

/-! ## Shuffle selection -/

/-- A draw in `[0, 1)` gives an index in `[0, n)`. -/
theorem randomIndexOf_range (r : ℚ) (n : Nat) (h0 : 0 ≤ r) (h1 : r < 1) (hn : 0 < n) :
    0 ≤ randomIndexOf r n ∧ randomIndexOf r n < (n : Int) := by
  have hnq : (0 : ℚ) < (n : ℚ) := by exact_mod_cast hn
  constructor
  · exact Int.floor_nonneg.2 (mul_nonneg h0 hnq.le)
  · refine Int.floor_lt.2 ?_
    have : r * (n : ℚ) < 1 * (n : ℚ) := mul_lt_mul_of_pos_right h1 hnq
    simpa using this

/-- What the resampling loop returns differs from the previous index and is
the initial index or comes from one of the draws. -/
theorem resampleLoop_sound (n : Nat) (lastIndex : HistoryValue) (draws : List ℚ) :
    ∀ (i j : Int), resampleLoop n lastIndex i draws = some j →
      HistoryValue.num (JsNum.int j) ≠ lastIndex ∧
      (j = i ∨ ∃ r ∈ draws, j = randomIndexOf r n) := by
  induction draws with
  | nil =>
    intro i j h
    unfold resampleLoop at h
    split at h
    · exact absurd h (by simp)
    · rename_i hne
      have hij : i = j := Option.some.inj h
      subst hij
      exact ⟨hne, Or.inl rfl⟩
  | cons r rest ih =>
    intro i j h
    unfold resampleLoop at h
    split at h
    · obtain ⟨h1, h2⟩ := ih _ _ h
      refine ⟨h1, Or.inr ?_⟩
      rcases h2 with h2 | ⟨r2, hr2, h2⟩
      · exact ⟨r, List.mem_cons_self _ _, h2⟩
      · exact ⟨r2, List.mem_cons_of_mem _ hr2, h2⟩
    · rename_i hne
      have hij : i = j := Option.some.inj h
      subst hij
      exact ⟨hne, Or.inl rfl⟩

/-- The resampling loop ends exactly when the initial index or one of the
draws gives an index other than the previous one. -/
theorem resampleLoop_ends_iff (n : Nat) (lastIndex : HistoryValue) (draws : List ℚ) :
    ∀ (i : Int), (∃ j, resampleLoop n lastIndex i draws = some j) ↔
      (HistoryValue.num (JsNum.int i) ≠ lastIndex ∨
        ∃ r ∈ draws, HistoryValue.num (JsNum.int (randomIndexOf r n)) ≠ lastIndex) := by
  induction draws with
  | nil =>
    intro i
    unfold resampleLoop
    by_cases h : HistoryValue.num (JsNum.int i) = lastIndex
    · simp [h]
    · simp [h]
  | cons r rest ih =>
    intro i
    unfold resampleLoop
    by_cases h : HistoryValue.num (JsNum.int i) = lastIndex
    · simp only [h, if_true, ih, ne_eq, not_true_eq_false, false_or, List.mem_cons,
        exists_eq_or_imp]
    · simp [h]

/-- Shuffle mode with more than one valid track: how `getNextTrack` unfolds. -/
theorem getNextTrack_shuffle (s : State) (station : Station) (r : ℚ) (rest : List ℚ)
    (hsh : s.isShuffle = true) (hN : 1 < (validTracksOf station).length) :
    getNextTrack s station (r :: rest) =
      match resampleLoop (validTracksOf station).length
          (histGet s.lastTrackByStation station.id)
          (randomIndexOf r (validTracksOf station).length) rest with
      | none => none
      | some randomIndex =>
        some (jsIndex (validTracksOf station) randomIndex,
          { logCall s Call.getNextTrack with
            lastTrackByStation :=
              histSet s.lastTrackByStation station.id (JsNum.int randomIndex) }) := by
  have h0 : (validTracksOf station).length ≠ 0 := by omega
  have h1 : (validTracksOf station).length ≠ 1 := by omega
  unfold getNextTrack
  simp only [h0, h1, if_false, logCall, hsh, Bool.true_eq_false]

/-- Shuffle mode with more than one valid track and no draw left: the model
has no value of `Math.random()` to go on. -/
theorem getNextTrack_shuffle_nil (s : State) (station : Station)
    (hsh : s.isShuffle = true) (hN : 1 < (validTracksOf station).length) :
    getNextTrack s station [] = none := by
  have h0 : (validTracksOf station).length ≠ 0 := by omega
  have h1 : (validTracksOf station).length ≠ 1 := by omega
  unfold getNextTrack
  simp only [h0, h1, if_false, logCall, hsh, Bool.true_eq_false]

/-- The selection mode is not touched by `getNextTrack`. -/
theorem getNextTrack_isShuffle (s s1 : State) (station : Station) (draws : List ℚ)
    (t : Option Track) (h : getNextTrack s station draws = some (t, s1)) :
    s1.isShuffle = s.isShuffle := by
  unfold getNextTrack at h
  simp only at h
  split at h
  · simp only [Option.some.injEq, Prod.mk.injEq] at h
    rw [← h.2]; rfl
  · split at h
    · simp only [Option.some.injEq, Prod.mk.injEq] at h
      rw [← h.2]; rfl
    · split at h
      · simp only [Option.some.injEq, Prod.mk.injEq] at h
        rw [← h.2]; rfl
      · split at h
        · simp at h
        · split at h
          · simp at h
          · simp only [Option.some.injEq, Prod.mk.injEq] at h
            rw [← h.2]; rfl

/-- One shuffle selection among more than one valid track: the selected index
is in range, differs from the stored one, and is stored. -/
theorem getNextTrack_shuffle_sound (s s1 : State) (station : Station) (draws : List ℚ)
    (t : Option Track)
    (hkey : station.id ≠ "__proto__")
    (hsh : s.isShuffle = true) (hN : 1 < (validTracksOf station).length)
    (hr : ∀ r ∈ draws, 0 ≤ r ∧ r < 1)
    (h : getNextTrack s station draws = some (t, s1)) :
    ∃ j : Nat, j < (validTracksOf station).length ∧
      t = (validTracksOf station)[j]? ∧
      HistoryValue.num (JsNum.int (j : Int)) ≠ histGet s.lastTrackByStation station.id ∧
      histGet s1.lastTrackByStation station.id = HistoryValue.num (JsNum.int (j : Int)) := by
  cases draws with
  | nil => rw [getNextTrack_shuffle_nil s station hsh hN] at h; exact absurd h (by simp)
  | cons r rest =>
    rw [getNextTrack_shuffle s station r rest hsh hN] at h
    split at h
    · exact absurd h (by simp)
    · rename_i i hloop
      simp only [Option.some.injEq, Prod.mk.injEq] at h
      obtain ⟨hne, hsrc⟩ := resampleLoop_sound _ _ _ _ _ hloop
      have hrange : 0 ≤ i ∧ i < ((validTracksOf station).length : Int) := by
        rcases hsrc with hsrc | ⟨r2, hr2, hsrc⟩
        · rw [hsrc]
          exact randomIndexOf_range r _ (hr r (List.mem_cons_self _ _)).1
            (hr r (List.mem_cons_self _ _)).2 (by omega)
        · rw [hsrc]
          exact randomIndexOf_range r2 _ (hr r2 (List.mem_cons_of_mem _ hr2)).1
            (hr r2 (List.mem_cons_of_mem _ hr2)).2 (by omega)
      obtain ⟨j, hj⟩ := Int.eq_ofNat_of_zero_le hrange.1
      subst hj
      refine ⟨j, by omega, ?_, hne, ?_⟩
      · rw [← h.1, jsIndex_natCast]
      · rw [← h.2]
        exact histGet_histSet_same _ _ _ hkey

/-- In shuffle mode with more than one valid track, a call returns exactly
when one of its draws gives an index other than the stored one. -/
theorem getNextTrack_shuffle_returns_iff (s : State) (station : Station) (draws : List ℚ)
    (hsh : s.isShuffle = true) (hN : 1 < (validTracksOf station).length) :
    (∃ res, getNextTrack s station draws = some res) ↔
      ∃ r ∈ draws, HistoryValue.num (JsNum.int (randomIndexOf r (validTracksOf station).length)) ≠
        histGet s.lastTrackByStation station.id := by
  cases draws with
  | nil => simp [getNextTrack_shuffle_nil s station hsh hN]
  | cons r rest =>
    rw [getNextTrack_shuffle s station r rest hsh hN]
    have hends := resampleLoop_ends_iff (validTracksOf station).length
      (histGet s.lastTrackByStation station.id) rest
      (randomIndexOf r (validTracksOf station).length)
    constructor
    · rintro ⟨res, hres⟩
      split at hres
      · exact absurd hres (by simp)
      · rename_i i hloop
        rcases hends.1 ⟨i, hloop⟩ with h | ⟨r2, hr2, h⟩
        · exact ⟨r, List.mem_cons_self _ _, h⟩
        · exact ⟨r2, List.mem_cons_of_mem _ hr2, h⟩
    · rintro ⟨r2, hr2, h⟩
      have : ∃ j, resampleLoop (validTracksOf station).length
          (histGet s.lastTrackByStation station.id)
          (randomIndexOf r (validTracksOf station).length) rest = some j := by
        apply hends.2
        rcases List.mem_cons.1 hr2 with e | hmem
        · subst e; exact Or.inl h
        · exact Or.inr ⟨r2, hmem, h⟩
      obtain ⟨j, hj⟩ := this
      rw [hj]
      exact ⟨_, rfl⟩

/-- A completed run of shuffle selections on one station: the stored indices
form a chain of unequal neighbours starting from the stored index before the
run, and each call returned the valid track at the index it stored. -/
theorem consecutiveCalls_shuffle (station : Station) (hkey : station.id ≠ "__proto__")
    (hN : 1 < (validTracksOf station).length) (drawss : List (List ℚ)) :
    ∀ (s : State) (results : List (Option Track × State)), s.isShuffle = true →
      (∀ draws ∈ drawss, ∀ r ∈ draws, 0 ≤ r ∧ r < 1) →
      consecutiveCalls station s drawss = some results →
      List.Chain (fun a b => a ≠ b) (histGet s.lastTrackByStation station.id)
          (results.map (fun p => histGet p.2.lastTrackByStation station.id)) ∧
        ∀ p ∈ results, ∃ j : Nat, j < (validTracksOf station).length ∧
          p.1 = (validTracksOf station)[j]? ∧
          histGet p.2.lastTrackByStation station.id = HistoryValue.num (JsNum.int (j : Int)) := by
  induction drawss with
  | nil =>
    intro s results _ _ h
    simp only [consecutiveCalls, Option.some.injEq] at h
    subst h
    exact ⟨List.Chain.nil, fun p hp => absurd hp (List.not_mem_nil p)⟩
  | cons draws more ih =>
    intro s results hsh hr h
    unfold consecutiveCalls at h
    split at h
    · exact absurd h (by simp)
    · rename_i t s1 hcall
      split at h
      · exact absurd h (by simp)
      · rename_i tail htail
        simp only [Option.some.injEq] at h
        subst h
        obtain ⟨j, hj, htj, hne, hst⟩ := getNextTrack_shuffle_sound s s1 station draws t hkey
          hsh hN (hr draws (List.mem_cons_self _ _)) hcall
        have hsh1 : s1.isShuffle = true := by
          rw [getNextTrack_isShuffle s s1 station draws t hcall]; exact hsh
        obtain ⟨hchain, hall⟩ := ih s1 tail hsh1
          (fun d hd => hr d (List.mem_cons_of_mem _ hd)) htail
        constructor
        · simp only [List.map_cons]
          refine List.Chain.cons ?_ hchain
          rw [hst]
          exact fun e => hne e.symm
        · intro p hp
          rcases List.mem_cons.1 hp with e | hmem
          · subst e
            exact ⟨j, hj, htj, hst⟩
          · exact hall p hmem

/-- X2. Shuffle never repeats immediately for a station whose id is not
`__proto__`. For such a station with more than one valid track, any stored
history and any draws of `Math.random()` in `[0, 1)`:
a call of `getNextTrack` in shuffle mode returns exactly when some draw gives
an index other than the stored one (the resampling loop ends), and then it
returns the valid track at an index in `[0, N)` that differs from the stored
index, and stores that index. In any completed run of consecutive shuffle
selections on the station no two adjacent stored indices are equal. -/
theorem shuffle_never_repeats_immediately (s : State) (station : Station)
    (hkey : station.id ≠ "__proto__")
    (hsh : s.isShuffle = true) (hN : 1 < (validTracksOf station).length) :
    (∀ draws : List ℚ, (∀ r ∈ draws, 0 ≤ r ∧ r < 1) →
      ((∃ res, getNextTrack s station draws = some res) ↔
        ∃ r ∈ draws, HistoryValue.num (JsNum.int (randomIndexOf r (validTracksOf station).length)) ≠
          histGet s.lastTrackByStation station.id) ∧
      ∀ (t : Option Track) (s1 : State), getNextTrack s station draws = some (t, s1) →
        ∃ j : Nat, j < (validTracksOf station).length ∧
          t = (validTracksOf station)[j]? ∧
          HistoryValue.num (JsNum.int (j : Int)) ≠ histGet s.lastTrackByStation station.id ∧
          histGet s1.lastTrackByStation station.id = HistoryValue.num (JsNum.int (j : Int))) ∧
    (∀ (drawss : List (List ℚ)) (results : List (Option Track × State)),
      (∀ draws ∈ drawss, ∀ r ∈ draws, 0 ≤ r ∧ r < 1) →
      consecutiveCalls station s drawss = some results →
      List.Chain (fun a b => a ≠ b) (histGet s.lastTrackByStation station.id)
          (results.map (fun p => histGet p.2.lastTrackByStation station.id)) ∧
        ∀ p ∈ results, ∃ j : Nat, j < (validTracksOf station).length ∧
          p.1 = (validTracksOf station)[j]? ∧
          histGet p.2.lastTrackByStation station.id = HistoryValue.num (JsNum.int (j : Int))) := by
  refine ⟨fun draws hr => ⟨getNextTrack_shuffle_returns_iff s station draws hsh hN,
    fun t s1 h => getNextTrack_shuffle_sound s s1 station draws t hkey hsh hN hr h⟩, ?_⟩
  intro drawss results hr h
  exact consecutiveCalls_shuffle station hkey hN drawss s results hsh hr h

/-- The index computed from a draw, from bounds on the product. -/
theorem randomIndexOf_eq (r : ℚ) (n : Nat) (j : Int) (h1 : (j : ℚ) ≤ r * (n : ℚ))
    (h2 : r * (n : ℚ) < (j : ℚ) + 1) : randomIndexOf r n = j :=
  Int.floor_eq_iff.2 ⟨h1, h2⟩

/-- X2 (witness). Three valid tracks, shuffle mode, three calls whose draws
first hit the stored index twice: the calls select the indices 1, 0, 2, and
the chain of stored indices has no equal neighbours. -/
theorem shuffle_never_repeats_immediately_witness :
    ∃ results,
      consecutiveCalls stationABC (initialState 80 50)
        [[1 / 2], [1 / 2, 0], [0, 0, 9 / 10]] = some results ∧
      results.map (fun p => (p.1, histGet p.2.lastTrackByStation stationABC.id)) =
        [(some trackB, HistoryValue.num (JsNum.int 1)),
         (some trackA, HistoryValue.num (JsNum.int 0)),
         (some trackC, HistoryValue.num (JsNum.int 2))] ∧
      List.Chain (fun a b => a ≠ b) (histGet (initialState 80 50).lastTrackByStation stationABC.id)
        (results.map (fun p => histGet p.2.lastTrackByStation stationABC.id)) := by
  have hval : (consecutiveCalls stationABC (initialState 80 50)
      [[1 / 2], [1 / 2, 0], [0, 0, 9 / 10]]).map
        (List.map (fun p => (p.1, histGet p.2.lastTrackByStation stationABC.id))) =
      some [(some trackB, HistoryValue.num (JsNum.int 1)),
        (some trackA, HistoryValue.num (JsNum.int 0)),
        (some trackC, HistoryValue.num (JsNum.int 2))] := by
    with_unfolding_all rfl
  cases hres : consecutiveCalls stationABC (initialState 80 50)
      [[1 / 2], [1 / 2, 0], [0, 0, 9 / 10]] with
  | none => rw [hres] at hval; exact absurd hval (by simp)
  | some results =>
    rw [hres] at hval
    refine ⟨results, rfl, by simpa using hval, ?_⟩
    exact ((shuffle_never_repeats_immediately (initialState 80 50) stationABC (by decide) rfl
      (by decide)).2 [[1 / 2], [1 / 2, 0], [0, 0, 9 / 10]] results
      (by
        intro draws hd r hr
        simp only [List.mem_cons, List.mem_singleton, List.not_mem_nil, or_false] at hd
        rcases hd with rfl | rfl | rfl <;>
          simp only [List.mem_cons, List.mem_singleton, List.not_mem_nil, or_false] at hr
        · subst hr; norm_num
        · rcases hr with rfl | rfl <;> norm_num
        · rcases hr with rfl | rfl | rfl <;> norm_num)
      hres).1

/-- C2 (the failing input). In shuffle mode, for the example station with id
`__proto__` and two valid tracks, two consecutive calls whose draws are both 0
return the same track at index 0: the assignment to the history is ignored, so
the history stays empty and the second call has nothing to compare with. -/
theorem shuffle_repeats_under_proto_key :
    (initialState 80 50).isShuffle = true ∧
    validTracksOf stationProto = [trackA, trackB] ∧
    (consecutiveCalls stationProto (initialState 80 50) [[0], [0]]).map
        (List.map (fun p => (p.1, p.2.lastTrackByStation,
          histGet p.2.lastTrackByStation stationProto.id))) =
      some [(some trackA, [], HistoryValue.inherited),
            (some trackA, [], HistoryValue.inherited)] := by
  refine ⟨rfl, by decide, ?_⟩
  with_unfolding_all rfl

/-! ## Stations without a valid track -/

/-- Without a valid track `getNextTrack` returns `null` and changes nothing
but the ghost call log. -/
theorem getNextTrack_no_valid (s : State) (station : Station) (draws : List ℚ)
    (hv : validTracksOf station = []) :
    getNextTrack s station draws = some (none, logCall s Call.getNextTrack) := by
  unfold getNextTrack
  simp [hv]

/-- C5. No valid tracks is a soft condition. For a station none of whose
tracks is accepted by `sanitizeTrack`, in either selection mode and for any
inputs, `getNextTrack` returns `null` and leaves `lastTrackByStation` (and
every other field of the state) unchanged; and `playFromCurrentStation`, that
station being current, returns having changed only the displayed texts (the
warning status, the track title `-` and the track line): `currentTrack`,
`isPoweredOn`, `useAudioGraph`, `consecutiveTrackErrors`, the history and
`audio.src` are unchanged and neither the audio graph nor `audio.play()` is
invoked. -/
theorem no_valid_tracks_is_soft (s : State) (station : Station) (env : PlayEnv)
    (hv : validTracksOf station = []) :
    (∀ draws : List ℚ,
      getNextTrack s station draws =
        some (none, { s with calls := s.calls ++ [Call.getNextTrack] })) ∧
    (getCurrentStation s = some station →
      ∃ s1, playFromCurrentStation s env = some s1 ∧
        s1 = { s with
                statusText := "No valid tracks in this station.",
                statusMode := StatusMode.warn,
                trackTitle := "-",
                trackMeta := station.name ++ " has no valid URLs yet.",
                calls := s.calls ++ [Call.playFromCurrentStation, Call.getNextTrack] } ∧
        s1.currentTrack = s.currentTrack ∧ s1.isPoweredOn = s.isPoweredOn ∧
        s1.useAudioGraph = s.useAudioGraph ∧
        s1.consecutiveTrackErrors = s.consecutiveTrackErrors ∧
        s1.lastTrackByStation = s.lastTrackByStation ∧
        s1.audioSrc = s.audioSrc ∧
        Call.audioPlay ∉ s1.calls.drop s.calls.length ∧
        Call.initAudioGraph ∉ s1.calls.drop s.calls.length) := by
  constructor
  · intro draws
    exact getNextTrack_no_valid s station draws hv
  · intro hcur
    have hcur1 : getCurrentStation (logCall s Call.playFromCurrentStation) = some station := hcur
    refine ⟨_, ?_, rfl, rfl, rfl, rfl, rfl, rfl, rfl, ?_, ?_⟩
    · unfold playFromCurrentStation
      simp only [hcur1, getNextTrack_no_valid _ station env.draws hv]
      simp only [logCall, setStatus, List.append_assoc, List.singleton_append]
    · simp
    · simp

/-- C5 (witness). With the example station without valid tracks current, in
the initial (shuffle) state, `playFromCurrentStation` starts nothing. -/
theorem no_valid_tracks_is_soft_witness :
    ∃ s1, playFromCurrentStation { initialState 80 50 with stations := [stationNone] }
        (envOf [] Settled.resolved Settled.resolved) = some s1 ∧
      s1.currentTrack = none ∧ s1.isPoweredOn = false ∧ s1.consecutiveTrackErrors = 0 ∧
      s1.lastTrackByStation = [] ∧ s1.statusText = "No valid tracks in this station." := by
  obtain ⟨s1, h1, h2, _⟩ :=
    (no_valid_tracks_is_soft { initialState 80 50 with stations := [stationNone] } stationNone
      (envOf [] Settled.resolved Settled.resolved) (by decide)).2 (by decide)
  refine ⟨s1, h1, ?_⟩
  subst h2
  exact ⟨rfl, rfl, rfl, rfl, rfl⟩

/-! ## Tone -/

/-- C9. Tone mapping. With a tone filter present `applyTone` sets its cutoff
to `toneFrequency` of the tone dial's value and changes nothing else; over
exact rationals `toneFrequency` is 500 at 0, 6250 at 50 and 12000 at 100, is
strictly increasing on `[0, 100]` and stays within `[500, 12000]` there; with
no tone filter `applyTone` changes nothing. -/
theorem tone_mapping :
    (∀ (s : State) (f : ℚ), s.toneFilter = some f →
      applyTone s = { s with toneFilter := some (toneFrequency s.toneDialValue) }) ∧
    toneFrequency 0 = 500 ∧ toneFrequency 50 = 6250 ∧ toneFrequency 100 = 12000 ∧
    (∀ p q : ℚ, 0 ≤ p → p < q → q ≤ 100 → toneFrequency p < toneFrequency q) ∧
    (∀ p : ℚ, 0 ≤ p → p ≤ 100 → 500 ≤ toneFrequency p ∧ toneFrequency p ≤ 12000) ∧
    (∀ s : State, s.toneFilter = none → applyTone s = s) := by
  refine ⟨?_, ?_, ?_, ?_, ?_, ?_, ?_⟩
  · intro s f hf
    simp only [applyTone, hf, toneFrequency]
  · norm_num [toneFrequency]
  · norm_num [toneFrequency]
  · norm_num [toneFrequency]
  · intro p q _ hpq _
    unfold toneFrequency
    linarith
  · intro p h0 h1
    unfold toneFrequency
    constructor <;> linarith
  · intro s hs
    simp only [applyTone, hs]

/-- C9 (witness). A state with a tone filter and the dial at 50: the cutoff
becomes 6250 Hz. -/
theorem tone_mapping_witness :
    (applyTone { initialState 80 50 with toneFilter := some 350 }).toneFilter = some 6250 := by
  rw [tone_mapping.1 { initialState 80 50 with toneFilter := some 350 } 350 rfl]
  simp only [initialState]
  rw [tone_mapping.2.2.1]

/-! ## Visualizer bar heights -/

/-- Heights set by the idle branch lie in `[8, 20]` when the sine lies in
`[-1, 1]`. -/
theorem idleBars_range {α : Type} [LinearOrderedField α] (sin : α → α)
    (hsin : ∀ x, -1 ≤ sin x ∧ sin x ≤ 1) (visualSeed : α) (count : Nat) :
    ∀ h ∈ idleBars sin visualSeed count, 8 ≤ h ∧ h ≤ 20 := by
  intro h hh
  simp only [idleBars, List.mem_map, List.mem_range] at hh
  obtain ⟨index, _, rfl⟩ := hh
  obtain ⟨h1, h2⟩ := hsin (visualSeed + (index : α) * (7 / 10))
  refine ⟨le_max_left _ _, max_le (by norm_num) ?_⟩
  linarith

/-- Heights set without analyser data lie in `[10, 100]`. -/
theorem syntheticBars_range {α : Type} [LinearOrderedField α] (sin : α → α) (t : α)
    (count : Nat) : ∀ h ∈ syntheticBars sin t count, 10 ≤ h ∧ h ≤ 100 := by
  intro h hh
  simp only [syntheticBars, List.mem_map, List.mem_range] at hh
  obtain ⟨index, _, rfl⟩ := hh
  exact ⟨le_max_left _ _, max_le (by norm_num) (min_le_left _ _)⟩

/-- Heights set from analyser data lie in `[8, 100]`. -/
theorem liveBars_range {α : Type} [LinearOrderedField α] (frequencyData : List Nat)
    (barCount : Nat) : ∀ h ∈ (liveBars frequencyData barCount : List α), 8 ≤ h ∧ h ≤ 100 := by
  intro h hh
  simp only [liveBars, List.mem_map, List.mem_range] at hh
  obtain ⟨i, _, rfl⟩ := hh
  exact ⟨le_max_left _ _, max_le (by norm_num) (min_le_left _ _)⟩

/-- The real sine at 4.7 is below `-2/3`. -/
theorem sin_at_47_tenths : Real.sin (47 / 10) < -(2 / 3) := by
  have hpi1 := Real.pi_gt_d2
  have hpi2 := Real.pi_lt_d2
  have h1 : Real.sin (47 / 10) = -Real.cos (Real.pi / 2 - (47 / 10 - Real.pi)) := by
    rw [Real.cos_pi_div_two_sub, Real.sin_sub_pi, neg_neg]
  have h2 := Real.one_sub_sq_div_two_le_cos (x := Real.pi / 2 - (47 / 10 - Real.pi))
  rw [h1]
  nlinarith

/-- C10 (counterexample). Powered off, with `visualSeed` at 4.675 before the
frame (4.7 once `drawIdleScope` has advanced it), the first equalizer bar is
set to a height below 10 percent. -/
theorem idle_bar_height_below_ten :
    ∃ h ∈ (animateVisualizer Real.sin (initialState 80 50)
        { paused := true, currentTime := 0, frequencyBytes := [] }
        { visualSeed := 4675 / 1000, barHeights := List.replicate 20 0 }).barHeights,
      h < 10 := by
  refine ⟨max 8 (14 + Real.sin (47 / 10) * 6), ?_, ?_⟩
  · have e : (animateVisualizer Real.sin (initialState 80 50)
        { paused := true, currentTime := 0, frequencyBytes := [] }
        { visualSeed := 4675 / 1000, barHeights := List.replicate 20 0 }).barHeights =
        idleBars Real.sin (4675 / 1000 + 25 / 1000) 20 := by
      simp [animateVisualizer, initialState, drawIdleScope]
    rw [e]
    unfold idleBars
    refine List.mem_map.2 ⟨0, by simp, ?_⟩
    norm_num
  · have := sin_at_47_tenths
    exact max_lt (by norm_num) (by linarith)

/-- C10 (amended). For every sine with values in `[-1, 1]`, every state, every
frame input and every bar: on a frame of the powered-on, playing path without
analyser data the height lies in `[10, 100]`; on a frame of the idle path
(powered off or paused) it lies in `[8, 20]`; on every frame, the path with
analyser data included, it lies in `[8, 100]` unless there is no bar at all.
The idle path advances `visualSeed` by 0.025. -/
theorem synthetic_bar_heights_range {α : Type} [LinearOrderedField α] (sin : α → α)
    (hsin : ∀ x, -1 ≤ sin x ∧ sin x ≤ 1) (s : State) (env : FrameEnv α) (v : Visual α) :
    (s.isPoweredOn = true → env.paused = false →
      (s.analyser = false ∨ s.frequencyData = false ∨ s.waveformData = false) →
      (animateVisualizer sin s env v).barHeights.length = v.barHeights.length ∧
      ∀ h ∈ (animateVisualizer sin s env v).barHeights, 10 ≤ h ∧ h ≤ 100) ∧
    ((s.isPoweredOn = false ∨ env.paused = true) →
      (animateVisualizer sin s env v).barHeights.length = v.barHeights.length ∧
      (animateVisualizer sin s env v).visualSeed = v.visualSeed + 25 / 1000 ∧
      ∀ h ∈ (animateVisualizer sin s env v).barHeights, 8 ≤ h ∧ h ≤ 20) ∧
    (∀ h ∈ (animateVisualizer sin s env v).barHeights, 8 ≤ h ∧ h ≤ 100) := by
  refine ⟨?_, ?_, ?_⟩
  · intro hon hpl hna
    have e : animateVisualizer sin s env v =
        { v with barHeights := syntheticBars sin env.currentTime v.barHeights.length } := by
      simp only [animateVisualizer, hon, hpl, and_self, if_true, drawLiveScope, hna]
    rw [e]
    exact ⟨by simp [syntheticBars], syntheticBars_range sin _ _⟩
  · intro hoff
    have hc : ¬ (s.isPoweredOn = true ∧ env.paused = false) := by
      rintro ⟨h1, h2⟩
      rcases hoff with h | h
      · rw [h1] at h; exact absurd h (by decide)
      · rw [h2] at h; exact absurd h (by decide)
    have e : animateVisualizer sin s env v =
        { visualSeed := v.visualSeed + 25 / 1000,
          barHeights := idleBars sin (v.visualSeed + 25 / 1000) v.barHeights.length } := by
      simp only [animateVisualizer, hc, if_false, drawIdleScope]
    rw [e]
    exact ⟨by simp [idleBars], rfl, idleBars_range sin hsin _ _⟩
  · intro h hh
    unfold animateVisualizer at hh
    split at hh
    · unfold drawLiveScope at hh
      split at hh
      · obtain ⟨h1, h2⟩ := syntheticBars_range sin _ _ h hh
        exact ⟨by linarith, h2⟩
      · split at hh
        · rename_i hlen
          rw [List.length_eq_zero.1 hlen] at hh
          exact absurd hh (List.not_mem_nil h)
        · exact liveBars_range _ _ h hh
    · obtain ⟨h1, h2⟩ := idleBars_range sin hsin _ _ h hh
      exact ⟨h1, by linarith⟩

/-- C10 (witness). The real sine lies in `[-1, 1]`, and on the idle frame of
the counterexample every bar height lies in `[8, 20]`. -/
theorem synthetic_bar_heights_range_witness :
    (∀ x : ℝ, -1 ≤ Real.sin x ∧ Real.sin x ≤ 1) ∧
    ∀ h ∈ (animateVisualizer Real.sin (initialState 80 50)
        { paused := true, currentTime := 0, frequencyBytes := [] }
        { visualSeed := 4675 / 1000, barHeights := List.replicate 20 0 }).barHeights,
      8 ≤ h ∧ h ≤ 20 :=
  ⟨fun x => ⟨Real.neg_one_le_sin x, Real.sin_le_one x⟩,
   ((synthetic_bar_heights_range Real.sin
      (fun x => ⟨Real.neg_one_le_sin x, Real.sin_le_one x⟩) (initialState 80 50)
      { paused := true, currentTime := 0, frequencyBytes := [] }
      { visualSeed := 4675 / 1000, barHeights := List.replicate 20 0 }).2.1 (Or.inl rfl)).2.2⟩

/-! ## Frame conditions of the pipeline and the controller -/

/-- The fields `getNextTrack` can change are the history and the call log. -/
theorem getNextTrack_frame (s s1 : State) (station : Station) (draws : List ℚ)
    (t : Option Track) (h : getNextTrack s station draws = some (t, s1)) :
    s1 = { s with lastTrackByStation := s1.lastTrackByStation,
                  calls := s.calls ++ [Call.getNextTrack] } := by
  unfold getNextTrack at h
  simp only at h
  split at h
  · simp only [Option.some.injEq, Prod.mk.injEq] at h
    rw [← h.2]; rfl
  · split at h
    · simp only [Option.some.injEq, Prod.mk.injEq] at h
      rw [← h.2]; rfl
    · split at h
      · simp only [Option.some.injEq, Prod.mk.injEq] at h
        rw [← h.2]; rfl
      · split at h
        · simp at h
        · split at h
          · simp at h
          · simp only [Option.some.injEq, Prod.mk.injEq] at h
            rw [← h.2]; rfl

/-- The fields `initAudioGraph` can change are those of the audio graph, the
element volume and the call log. -/
theorem initAudioGraph_frame (s : State) (env : PlayEnv) :
    (initAudioGraph s env).1 =
      { s with audioCtx := (initAudioGraph s env).1.audioCtx,
               analyser := (initAudioGraph s env).1.analyser,
               sourceNode := (initAudioGraph s env).1.sourceNode,
               toneFilter := (initAudioGraph s env).1.toneFilter,
               gainNode := (initAudioGraph s env).1.gainNode,
               frequencyData := (initAudioGraph s env).1.frequencyData,
               waveformData := (initAudioGraph s env).1.waveformData,
               audioVolume := (initAudioGraph s env).1.audioVolume,
               calls := s.calls ++ [Call.initAudioGraph] } := by
  unfold initAudioGraph
  simp only [logCall]
  split_ifs <;> first | rfl | (simp only [applyVolume, applyTone]; split_ifs <;> rfl)

/-- The fields `await initAudioGraph(); await audio.play()` can change, and
when the sequence resolves. -/
theorem initThenPlay_frame (s : State) (env : PlayEnv) :
    (initThenPlay s env).1 =
      { s with audioCtx := (initThenPlay s env).1.audioCtx,
               analyser := (initThenPlay s env).1.analyser,
               sourceNode := (initThenPlay s env).1.sourceNode,
               toneFilter := (initThenPlay s env).1.toneFilter,
               gainNode := (initThenPlay s env).1.gainNode,
               frequencyData := (initThenPlay s env).1.frequencyData,
               waveformData := (initThenPlay s env).1.waveformData,
               audioVolume := (initThenPlay s env).1.audioVolume,
               calls := (initThenPlay s env).1.calls } ∧
    (∃ rest, (initThenPlay s env).1.calls = s.calls ++ rest) ∧
    ((initThenPlay s env).2 = Settled.resolved → env.play = Settled.resolved) := by
  have hf := initAudioGraph_frame s env
  unfold initThenPlay
  cases hi : initAudioGraph s env with
  | mk s1 r =>
    rw [hi] at hf
    simp only at hf
    cases r with
    | resolved =>
      refine ⟨?_, ⟨[Call.initAudioGraph, Call.audioPlay], ?_⟩, fun h => h⟩
      · simp only [logCall]
        rw [hf]
      · simp only [logCall]
        rw [hf]
        simp
    | rejected =>
      refine ⟨?_, ⟨[Call.initAudioGraph], ?_⟩, fun h => absurd h (by simp)⟩
      · simp only
        rw [hf]
      · simp only
        rw [hf]
    | pending =>
      refine ⟨?_, ⟨[Call.initAudioGraph], ?_⟩, fun h => absurd h (by simp)⟩
      · simp only
        rw [hf]
      · simp only
        rw [hf]

/-- What `startTrack` does to the session: the navigation fields, the
selection mode and the history stay; the call log grows; the error counter is
kept, or reset together with the session being marked powered on, which takes
a resolved `audio.play()`. -/
theorem startTrack_effects (s : State) (track : Track) (station : Station) (env : PlayEnv) :
    (startTrack s track station env).stations = s.stations ∧
    (startTrack s track station env).stationIndex = s.stationIndex ∧
    (startTrack s track station env).isShuffle = s.isShuffle ∧
    (startTrack s track station env).lastTrackByStation = s.lastTrackByStation ∧
    (startTrack s track station env).stationSnapAnimating = s.stationSnapAnimating ∧
    (startTrack s track station env).pendingSnap = s.pendingSnap ∧
    (startTrack s track station env).stationDialValue = s.stationDialValue ∧
    (startTrack s track station env).currentTrack = some track ∧
    (∃ rest, (startTrack s track station env).calls = s.calls ++ rest) ∧
    (((startTrack s track station env).consecutiveTrackErrors = 0 ∧
        (startTrack s track station env).isPoweredOn = true ∧
        (env.play = Settled.resolved ∨ env.fallbackPlay = Settled.resolved)) ∨
      ((startTrack s track station env).consecutiveTrackErrors = s.consecutiveTrackErrors ∧
        ((startTrack s track station env).isPoweredOn = true → s.isPoweredOn = true))) := by
  unfold startTrack
  simp only
  generalize hs0 : ({ (updateNowPlaying { s with currentTrack := some track } track station) with
      audioSrc := trackUrl track,
      useAudioGraph := (trackUrl track).elim false env.graphEligible } : State) = s0
  have hs0' : s0.stations = s.stations ∧ s0.stationIndex = s.stationIndex ∧
      s0.isShuffle = s.isShuffle ∧ s0.lastTrackByStation = s.lastTrackByStation ∧
      s0.stationSnapAnimating = s.stationSnapAnimating ∧ s0.pendingSnap = s.pendingSnap ∧
      s0.stationDialValue = s.stationDialValue ∧ s0.currentTrack = some track ∧
      s0.calls = s.calls ∧ s0.consecutiveTrackErrors = s.consecutiveTrackErrors ∧
      s0.isPoweredOn = s.isPoweredOn := by
    rw [← hs0]
    simp [updateNowPlaying]
  obtain ⟨a1, a2, a3, a4, a5, a6, a7, a8, a9, a10, a11⟩ := hs0'
  obtain ⟨hf, ⟨rest, hcalls⟩, hres⟩ := initThenPlay_frame s0 env
  cases hitp : initThenPlay s0 env with
  | mk s2 r =>
    rw [hitp] at hf hcalls hres
    simp only at hf hcalls hres
    have b : s2.stations = s.stations ∧ s2.stationIndex = s.stationIndex ∧
        s2.isShuffle = s.isShuffle ∧ s2.lastTrackByStation = s.lastTrackByStation ∧
        s2.stationSnapAnimating = s.stationSnapAnimating ∧ s2.pendingSnap = s.pendingSnap ∧
        s2.stationDialValue = s.stationDialValue ∧ s2.currentTrack = some track ∧
        s2.consecutiveTrackErrors = s.consecutiveTrackErrors ∧
        s2.isPoweredOn = s.isPoweredOn := by
      rw [hf]
      exact ⟨a1, a2, a3, a4, a5, a6, a7, a8, a10, a11⟩
    obtain ⟨b1, b2, b3, b4, b5, b6, b7, b8, b10, b11⟩ := b
    rw [a9] at hcalls
    cases r with
    | pending =>
      exact ⟨b1, b2, b3, b4, b5, b6, b7, b8, ⟨rest, hcalls⟩, Or.inr ⟨b10, fun h => b11 ▸ h⟩⟩
    | resolved =>
      refine ⟨b1, b2, b3, b4, b5, b6, b7, b8, ⟨rest, hcalls⟩, Or.inl ⟨rfl, rfl, Or.inl (hres rfl)⟩⟩
    | rejected =>
      simp only
      split_ifs with hg
      · cases hfb : env.fallbackPlay with
        | pending =>
          simp only [logCall]
          exact ⟨b1, b2, b3, b4, b5, b6, b7, b8, ⟨rest ++ [Call.audioPlay], by simp [hcalls]⟩,
            Or.inr ⟨b10, fun h => b11 ▸ h⟩⟩
        | resolved =>
          simp only [logCall, markLive, setStatus]
          exact ⟨b1, b2, b3, b4, b5, b6, b7, b8, ⟨rest ++ [Call.audioPlay], by simp [hcalls]⟩,
            Or.inl ⟨trivial, trivial, Or.inr trivial⟩⟩
        | rejected =>
          simp only [logCall, markBlocked, setStatus]
          exact ⟨b1, b2, b3, b4, b5, b6, b7, b8, ⟨rest ++ [Call.audioPlay], by simp [hcalls]⟩,
            Or.inr ⟨b10, fun h => absurd h (by simp)⟩⟩
      · simp only [markBlocked, setStatus]
        exact ⟨b1, b2, b3, b4, b5, b6, b7, b8, ⟨rest, hcalls⟩,
          Or.inr ⟨b10, fun h => absurd h (by simp)⟩⟩

/-- When `getNextTrack` returns: always in sequential mode and with at most
one valid track, and in shuffle mode as soon as a draw gives an index other
than the stored one. -/
theorem getNextTrack_returns (s : State) (station : Station) (draws : List ℚ)
    (h : s.isShuffle = false ∨ (validTracksOf station).length ≤ 1 ∨
      ∃ r ∈ draws, HistoryValue.num (JsNum.int (randomIndexOf r (validTracksOf station).length)) ≠
        histGet s.lastTrackByStation station.id) :
    ∃ res, getNextTrack s station draws = some res := by
  by_cases h0 : (validTracksOf station).length = 0
  · exact ⟨_, getNextTrack_no_valid s station draws (List.length_eq_zero.1 h0)⟩
  · by_cases hseq : s.isShuffle = false
    · exact ⟨_, getNextTrack_sequential s station draws hseq h0⟩
    · have hsh : s.isShuffle = true := by simpa using hseq
      by_cases h1 : (validTracksOf station).length = 1
      · unfold getNextTrack
        simp only [h0, h1, if_false, if_true, logCall, hsh, Bool.true_eq_false]
        exact ⟨_, rfl⟩
      · have hN : 1 < (validTracksOf station).length := by omega
        rcases h with h | h | h
        · exact absurd h hseq
        · omega
        · exact (getNextTrack_shuffle_returns_iff s station draws hsh hN).2 h

/-- The function `playFromCurrentStation` returns exactly when the selection
for the current station does. -/
theorem playFromCurrentStation_returns_iff (s : State) (env : PlayEnv) :
    (∃ s1, playFromCurrentStation s env = some s1) ↔
      ∀ station, getCurrentStation s = some station →
        ∃ res, getNextTrack (logCall s Call.playFromCurrentStation) station env.draws
          = some res := by
  unfold playFromCurrentStation
  simp only
  have hcur : getCurrentStation (logCall s Call.playFromCurrentStation) = getCurrentStation s :=
    rfl
  rw [hcur]
  cases hc : getCurrentStation s with
  | none => simp
  | some station =>
    simp only [Option.some.injEq, forall_eq']
    cases hg : getNextTrack (logCall s Call.playFromCurrentStation) station env.draws with
    | none => simp
    | some res =>
      obtain ⟨t, s1⟩ := res
      refine ⟨fun _ => ⟨_, rfl⟩, fun _ => ?_⟩
      split <;> first | exact ⟨_, rfl⟩ | (rename_i hh; exact absurd hh (by simp))

/-- What `playFromCurrentStation` does to the session when it returns. -/
theorem playFromCurrentStation_effects (s s1 : State) (env : PlayEnv)
    (h : playFromCurrentStation s env = some s1) :
    s1.stations = s.stations ∧ s1.stationIndex = s.stationIndex ∧
    s1.isShuffle = s.isShuffle ∧
    s1.stationSnapAnimating = s.stationSnapAnimating ∧ s1.pendingSnap = s.pendingSnap ∧
    s1.stationDialValue = s.stationDialValue ∧
    (∃ rest, s1.calls = s.calls ++ Call.playFromCurrentStation :: rest ∧
      (getCurrentStation s ≠ none → Call.getNextTrack ∈ rest)) ∧
    ((s1.consecutiveTrackErrors = 0 ∧ s1.isPoweredOn = true ∧
        (env.play = Settled.resolved ∨ env.fallbackPlay = Settled.resolved) ∧
        getCurrentStation s ≠ none) ∨
      (s1.consecutiveTrackErrors = s.consecutiveTrackErrors ∧
        (s1.isPoweredOn = true → s.isPoweredOn = true))) := by
  unfold playFromCurrentStation at h
  simp only at h
  have hcur : getCurrentStation (logCall s Call.playFromCurrentStation) = getCurrentStation s :=
    rfl
  rw [hcur] at h
  cases hc : getCurrentStation s with
  | none =>
    rw [hc] at h
    simp only [Option.some.injEq] at h
    subst h
    exact ⟨rfl, rfl, rfl, rfl, rfl, rfl, ⟨[], rfl, fun hh => absurd rfl hh⟩,
      Or.inr ⟨rfl, fun hh => hh⟩⟩
  | some station =>
    rw [hc] at h
    simp only at h
    cases hg : getNextTrack (logCall s Call.playFromCurrentStation) station env.draws with
    | none => rw [hg] at h; exact absurd h (by simp)
    | some res =>
      obtain ⟨t, s2⟩ := res
      rw [hg] at h
      have hfr := getNextTrack_frame _ _ _ _ _ hg
      have c : s2.stations = s.stations ∧ s2.stationIndex = s.stationIndex ∧
          s2.isShuffle = s.isShuffle ∧ s2.stationSnapAnimating = s.stationSnapAnimating ∧
          s2.pendingSnap = s.pendingSnap ∧ s2.stationDialValue = s.stationDialValue ∧
          s2.calls = s.calls ++ [Call.playFromCurrentStation, Call.getNextTrack] ∧
          s2.consecutiveTrackErrors = s.consecutiveTrackErrors ∧
          s2.isPoweredOn = s.isPoweredOn := by
        rw [hfr]
        simp [logCall]
      obtain ⟨c1, c2, c3, c4, c5, c6, c7, c8, c9⟩ := c
      split at h
      · exact absurd h (by simp)
      · rename_i title url s3 heq
        simp only [Option.some.injEq, Prod.mk.injEq] at heq
        obtain ⟨_, heq2⟩ := heq
        subst heq2
        simp only [Option.some.injEq] at h
        subst h
        obtain ⟨d1, d2, d3, _, d5, d6, d7, _, ⟨rest, d9⟩, d10⟩ :=
          startTrack_effects s2 (Track.obj title url) station env
        refine ⟨d1.trans c1, d2.trans c2, d3.trans c3, d5.trans c4, d6.trans c5, d7.trans c6,
          ⟨Call.getNextTrack :: rest, by rw [d9, c7]; simp, fun _ => List.mem_cons_self _ _⟩, ?_⟩
        rcases d10 with ⟨e1, e2, e3⟩ | ⟨e1, e2⟩
        · exact Or.inl ⟨e1, e2, e3, by simp⟩
        · exact Or.inr ⟨e1.trans c8, fun hh => c9 ▸ e2 hh⟩
      · rename_i t2 s3 _ heq
        simp only [Option.some.injEq, Prod.mk.injEq] at heq
        obtain ⟨_, heq2⟩ := heq
        subst heq2
        simp only [Option.some.injEq] at h
        subst h
        simp only [setStatus]
        exact ⟨c1, c2, c3, c4, c5, c6,
          ⟨[Call.getNextTrack], by simp [c7], fun _ => List.mem_cons_self _ _⟩,
          Or.inr ⟨c8, fun hh => c9 ▸ hh⟩⟩

/-! ## Bounded retry -/

/-- The `maxSkips` of the error listener is the count of valid tracks clamped
to `[2, 6]`. -/
theorem maxSkipsOf_eq_clamp (n : Nat) : maxSkipsOf n = max 2 (min 6 n) := by
  unfold maxSkipsOf
  split_ifs with h
  · subst h; rfl
  · rfl

/-- The count of valid tracks of the current station depends on the station
list and the station index only. -/
theorem stationTrackCount_congr (s s1 : State) (h1 : s1.stations = s.stations)
    (h2 : s1.stationIndex = s.stationIndex) : stationTrackCount s1 = stationTrackCount s := by
  unfold stationTrackCount getCurrentStation
  rw [h1, h2]

/-- The error listener at or past the threshold: it pauses, powers off and
returns without a retry. -/
theorem onAudioError_at_threshold (s : State) (env : PlayEnv)
    (h : maxSkipsOf (stationTrackCount s) ≤ s.consecutiveTrackErrors + 1) :
    onAudioError s env =
      some { s with
        consecutiveTrackErrors := s.consecutiveTrackErrors + 1,
        isPoweredOn := false,
        powerBtnText := "Power On",
        statusText := "Playback failed repeatedly for this station.",
        statusMode := StatusMode.warn,
        helperText :=
          "Tracks are reachable, so this is likely a browser/CORS issue. Try another station or refresh.",
        calls := s.calls ++ [Call.audioPause] } := by
  have h' : maxSkipsOf (match getCurrentStation
      { s with consecutiveTrackErrors := s.consecutiveTrackErrors + 1 } with
      | some station => (validTracksOf station).length
      | none => 0) ≤ s.consecutiveTrackErrors + 1 := h
  unfold onAudioError
  simp only [ge_iff_le, h', if_true, logCall, setStatus]

/-- The error listener below the threshold: it hands over to
`playFromCurrentStation`. -/
theorem onAudioError_below_threshold (s : State) (env : PlayEnv)
    (h : s.consecutiveTrackErrors + 1 < maxSkipsOf (stationTrackCount s)) :
    onAudioError s env =
      playFromCurrentStation
        { s with
          consecutiveTrackErrors := s.consecutiveTrackErrors + 1,
          statusText := "Track failed to play. Scanning next...",
          statusMode := StatusMode.warn } env := by
  have h' : ¬ maxSkipsOf (match getCurrentStation
      { s with consecutiveTrackErrors := s.consecutiveTrackErrors + 1 } with
      | some station => (validTracksOf station).length
      | none => 0) ≤ s.consecutiveTrackErrors + 1 := Nat.not_le.2 h
  unfold onAudioError
  simp only [ge_iff_le, h', if_false, setStatus]

/-- One audio `error` event whose retry, if any, does not start playback. -/
theorem onAudioError_effects (s s1 : State) (env : PlayEnv)
    (hfail : env.play ≠ Settled.resolved ∧ env.fallbackPlay ≠ Settled.resolved)
    (h : onAudioError s env = some s1) :
    s1.consecutiveTrackErrors = s.consecutiveTrackErrors + 1 ∧
    s1.stations = s.stations ∧ s1.stationIndex = s.stationIndex ∧
    s1.isShuffle = s.isShuffle ∧
    (s.consecutiveTrackErrors + 1 < maxSkipsOf (stationTrackCount s) →
      ∃ rest, s1.calls = s.calls ++ Call.playFromCurrentStation :: rest ∧
        (getCurrentStation s ≠ none → Call.getNextTrack ∈ rest)) ∧
    (maxSkipsOf (stationTrackCount s) ≤ s.consecutiveTrackErrors + 1 →
      s1.isPoweredOn = false ∧ s1.calls = s.calls ++ [Call.audioPause]) := by
  by_cases hlt : s.consecutiveTrackErrors + 1 < maxSkipsOf (stationTrackCount s)
  · rw [onAudioError_below_threshold s env hlt] at h
    obtain ⟨e1, e2, e3, _, _, _, e7, e8⟩ := playFromCurrentStation_effects _ _ _ h
    refine ⟨?_, e1, e2, e3, fun _ => e7, fun hge => absurd hlt (Nat.not_lt.2 hge)⟩
    rcases e8 with ⟨_, _, hres, _⟩ | ⟨hc, _⟩
    · rcases hres with hres | hres
      · exact absurd hres hfail.1
      · exact absurd hres hfail.2
    · exact hc
  · have hge : maxSkipsOf (stationTrackCount s) ≤ s.consecutiveTrackErrors + 1 :=
      Nat.not_lt.1 hlt
    rw [onAudioError_at_threshold s env hge] at h
    simp only [Option.some.injEq] at h
    subst h
    exact ⟨rfl, rfl, rfl, rfl, fun hh => absurd hh hlt, fun _ => ⟨rfl, rfl⟩⟩

/-- A run of audio `error` events without a successful play start, from a
state whose counter is `c`: event number `k + 1` leaves the counter at
`c + k + 1`; it retries below the threshold and powers off without a retry at
or past it. -/
theorem errorRun_effects (envs : List PlayEnv) :
    ∀ (s : State) (states : List State),
      (∀ env ∈ envs, env.play ≠ Settled.resolved ∧ env.fallbackPlay ≠ Settled.resolved) →
      errorRun s envs = some states →
      states.length = envs.length ∧
      ∀ (k : Nat) (before after : State), (s :: states)[k]? = some before →
        states[k]? = some after →
        after.consecutiveTrackErrors = s.consecutiveTrackErrors + k + 1 ∧
        after.stations = s.stations ∧ after.stationIndex = s.stationIndex ∧
        (s.consecutiveTrackErrors + k + 1 < maxSkipsOf (stationTrackCount s) →
          ∃ rest, after.calls = before.calls ++ Call.playFromCurrentStation :: rest ∧
            (getCurrentStation s ≠ none → Call.getNextTrack ∈ rest)) ∧
        (maxSkipsOf (stationTrackCount s) ≤ s.consecutiveTrackErrors + k + 1 →
          after.isPoweredOn = false ∧ after.calls = before.calls ++ [Call.audioPause]) := by
  induction envs with
  | nil =>
    intro s states _ h
    simp only [errorRun, Option.some.injEq] at h
    subst h
    exact ⟨rfl, fun k before after _ h2 => absurd h2 (by simp)⟩
  | cons env more ih =>
    intro s states hfail h
    unfold errorRun at h
    split at h
    · exact absurd h (by simp)
    · rename_i s1 hstep
      split at h
      · exact absurd h (by simp)
      · rename_i rest hrest
        simp only [Option.some.injEq] at h
        subst h
        obtain ⟨f1, f2, f3, _, f5, f6⟩ :=
          onAudioError_effects s s1 env (hfail env (List.mem_cons_self _ _)) hstep
        obtain ⟨hlen, hall⟩ := ih s1 rest (fun e he => hfail e (List.mem_cons_of_mem _ he)) hrest
        have hcount : stationTrackCount s1 = stationTrackCount s :=
          stationTrackCount_congr s s1 f2 f3
        have hcur : getCurrentStation s1 = getCurrentStation s := by
          unfold getCurrentStation; rw [f2, f3]
        refine ⟨by simp [hlen], ?_⟩
        intro k before after hb ha
        cases k with
        | zero =>
          simp only [List.getElem?_cons_zero, Option.some.injEq] at hb ha
          subst hb ha
          exact ⟨f1, f2, f3, f5, f6⟩
        | succ j =>
          simp only [List.getElem?_cons_succ] at hb ha
          obtain ⟨g1, g2, g3, g4, g5⟩ := hall j before after hb ha
          rw [hcount, f1, hcur] at g4
          rw [hcount, f1] at g5
          refine ⟨by rw [g1, f1]; omega, g2.trans f2, g3.trans f3, ?_, ?_⟩
          · intro hh
            exact g4 (by omega)
          · intro hh
            exact g5 (by omega)

/-- The navigation fields and the selection mode after an audio `error`
event. -/
theorem onAudioError_nav (s s1 : State) (env : PlayEnv) (h : onAudioError s env = some s1) :
    s1.stations = s.stations ∧ s1.stationIndex = s.stationIndex ∧
    s1.isShuffle = s.isShuffle := by
  by_cases hlt : s.consecutiveTrackErrors + 1 < maxSkipsOf (stationTrackCount s)
  · rw [onAudioError_below_threshold s env hlt] at h
    obtain ⟨e1, e2, e3, _⟩ := playFromCurrentStation_effects _ _ _ h
    exact ⟨e1, e2, e3⟩
  · rw [onAudioError_at_threshold s env (Nat.not_lt.1 hlt)] at h
    simp only [Option.some.injEq] at h
    subst h
    exact ⟨rfl, rfl, rfl⟩

/-- An audio `error` event returns when, in shuffle mode with more than one
valid track, two of its draws give different indices. -/
theorem onAudioError_returns (s : State) (env : PlayEnv)
    (hrich : s.isShuffle = true → 1 < stationTrackCount s →
      ∃ r1 ∈ env.draws, ∃ r2 ∈ env.draws,
        randomIndexOf r1 (stationTrackCount s) ≠ randomIndexOf r2 (stationTrackCount s)) :
    ∃ s1, onAudioError s env = some s1 := by
  by_cases hlt : s.consecutiveTrackErrors + 1 < maxSkipsOf (stationTrackCount s)
  · rw [onAudioError_below_threshold s env hlt]
    apply (playFromCurrentStation_returns_iff _ _).2
    intro station hst
    have hst' : getCurrentStation s = some station := hst
    have hcount : stationTrackCount s = (validTracksOf station).length := by
      unfold stationTrackCount; rw [hst']
    apply getNextTrack_returns
    by_cases hseq : s.isShuffle = false
    · exact Or.inl hseq
    · have hsh : s.isShuffle = true := by simpa using hseq
      by_cases hN : (validTracksOf station).length ≤ 1
      · exact Or.inr (Or.inl hN)
      · obtain ⟨r1, hr1, r2, hr2, hne⟩ := hrich hsh (by omega)
        rw [hcount] at hne
        refine Or.inr (Or.inr ?_)
        by_cases h1 : HistoryValue.num (JsNum.int
            (randomIndexOf r1 (validTracksOf station).length)) =
            histGet s.lastTrackByStation station.id
        · refine ⟨r2, hr2, ?_⟩
          intro h2
          have h3 := h1.trans h2.symm
          simp only [HistoryValue.num.injEq, JsNum.int.injEq] at h3
          exact hne h3
        · exact ⟨r1, hr1, h1⟩
  · rw [onAudioError_at_threshold s env (Nat.not_lt.1 hlt)]
    exact ⟨_, rfl⟩

/-- A run of audio `error` events returns under the draws condition of
`onAudioError_returns`. -/
theorem errorRun_returns (envs : List PlayEnv) :
    ∀ s : State,
      (s.isShuffle = true → 1 < stationTrackCount s → ∀ env ∈ envs,
        ∃ r1 ∈ env.draws, ∃ r2 ∈ env.draws,
          randomIndexOf r1 (stationTrackCount s) ≠ randomIndexOf r2 (stationTrackCount s)) →
      ∃ states, errorRun s envs = some states := by
  induction envs with
  | nil => intro s _; exact ⟨[], rfl⟩
  | cons env more ih =>
    intro s hrich
    obtain ⟨s1, hs1⟩ := onAudioError_returns s env
      (fun hsh hN => hrich hsh hN env (List.mem_cons_self _ _))
    obtain ⟨n1, n2, n3⟩ := onAudioError_nav s s1 env hs1
    have hcount : stationTrackCount s1 = stationTrackCount s :=
      stationTrackCount_congr s s1 n1 n2
    obtain ⟨rest, hrest⟩ := ih s1 (by
      intro hsh hN e he
      rw [hcount]
      rw [hcount] at hN
      rw [n3] at hsh
      exact hrich hsh hN e (List.mem_cons_of_mem _ he))
    exact ⟨s1 :: rest, by simp only [errorRun, hs1, hrest]⟩

/-- C3. Bounded retry. Let `n` be the number of valid tracks of the current
station and `maxSkips = clamp(n, 2, 6)`. From a state with
`consecutiveTrackErrors = 0`, in a run of audio `error` events none of whose
retries starts playback, event number `k + 1` leaves the counter at `k + 1`;
while `k + 1 < maxSkips` it calls `playFromCurrentStation` (which re-selects
through `getNextTrack` when there is a current station); from the
`maxSkips`-th event on it pauses the audio, sets `isPoweredOn = false` and
makes no other call. The run returns whenever the draws let every selection
end. -/
theorem bounded_retry (s : State) (envs : List PlayEnv)
    (h0 : s.consecutiveTrackErrors = 0)
    (hfail : ∀ env ∈ envs,
      env.play ≠ Settled.resolved ∧ env.fallbackPlay ≠ Settled.resolved) :
    maxSkipsOf (stationTrackCount s) = max 2 (min 6 (stationTrackCount s)) ∧
    (∀ states, errorRun s envs = some states →
      states.length = envs.length ∧
      ∀ (k : Nat) (before after : State), (s :: states)[k]? = some before →
        states[k]? = some after →
        after.consecutiveTrackErrors = k + 1 ∧
        (k + 1 < maxSkipsOf (stationTrackCount s) →
          ∃ rest, after.calls = before.calls ++ Call.playFromCurrentStation :: rest ∧
            (getCurrentStation s ≠ none → Call.getNextTrack ∈ rest)) ∧
        (maxSkipsOf (stationTrackCount s) ≤ k + 1 →
          after.isPoweredOn = false ∧ after.calls = before.calls ++ [Call.audioPause])) ∧
    ((s.isShuffle = true → 1 < stationTrackCount s → ∀ env ∈ envs,
        ∃ r1 ∈ env.draws, ∃ r2 ∈ env.draws,
          randomIndexOf r1 (stationTrackCount s) ≠ randomIndexOf r2 (stationTrackCount s)) →
      ∃ states, errorRun s envs = some states) := by
  refine ⟨maxSkipsOf_eq_clamp _, ?_, errorRun_returns envs s⟩
  intro states hrun
  obtain ⟨hlen, hall⟩ := errorRun_effects envs s states hfail hrun
  refine ⟨hlen, ?_⟩
  intro k before after hb ha
  obtain ⟨g1, _, _, g4, g5⟩ := hall k before after hb ha
  rw [h0] at g1 g4 g5
  simp only [Nat.zero_add] at g1 g4 g5
  exact ⟨g1, g4, g5⟩

/-- C3 (witness). Two valid tracks, so `maxSkips = 2`: from the live example
state the first failure retries (the retry stays pending) and the second
powers off with no call but `audio.pause()`. -/
theorem bounded_retry_witness :
    ∃ s1 s2,
      errorRun liveStateAB
        [envOf [] Settled.pending Settled.pending,
         envOf [] Settled.rejected Settled.rejected] = some [s1, s2] ∧
      s1.consecutiveTrackErrors = 1 ∧
      (∃ rest, s1.calls = liveStateAB.calls ++ Call.playFromCurrentStation :: rest) ∧
      s2.consecutiveTrackErrors = 2 ∧ s2.isPoweredOn = false ∧
      s2.calls = s1.calls ++ [Call.audioPause] := by
  have hfail : ∀ env ∈ [envOf [] Settled.pending Settled.pending,
      envOf [] Settled.rejected Settled.rejected],
      env.play ≠ Settled.resolved ∧ env.fallbackPlay ≠ Settled.resolved := by
    intro env he
    simp only [List.mem_cons, List.mem_singleton, List.not_mem_nil, or_false] at he
    rcases he with rfl | rfl <;> exact ⟨by decide, by decide⟩
  obtain ⟨_, hall, hret⟩ := bounded_retry liveStateAB
    [envOf [] Settled.pending Settled.pending, envOf [] Settled.rejected Settled.rejected]
    rfl hfail
  obtain ⟨states, hrun⟩ := hret (fun hsh => absurd hsh (by decide))
  obtain ⟨hlen, hk⟩ := hall states hrun
  obtain ⟨s1, s2, hstates⟩ : ∃ s1 s2, states = [s1, s2] := List.length_eq_two.1 hlen
  subst hstates
  obtain ⟨a1, a2, _⟩ := hk 0 liveStateAB s1 rfl rfl
  obtain ⟨b1, _, b3⟩ := hk 1 s1 s2 rfl rfl
  obtain ⟨rest, hrest, _⟩ := a2 (by decide)
  obtain ⟨c1, c2⟩ := b3 (by decide)
  exact ⟨s1, s2, hrun, a1, ⟨rest, hrest⟩, b1, c1, c2⟩

/-! ## Station navigation -/

/-- A clamped value lies between the bounds. -/
theorem clampInt_range (lo hi x : Int) (h : lo ≤ hi) :
    lo ≤ clampInt lo hi x ∧ clampInt lo hi x ≤ hi := by
  unfold clampInt
  exact ⟨le_max_left _ _, max_le h (min_le_left _ _)⟩

/-- A value between the bounds is left alone by clamping. -/
theorem clampInt_of_range (lo hi x : Int) (h1 : lo ≤ x) (h2 : x ≤ hi) :
    clampInt lo hi x = x := by
  unfold clampInt
  rw [min_eq_right h2, max_eq_right h1]

/-- An index in range designates a station. -/
theorem getCurrentStation_isSome (s : State) (h0 : 0 ≤ s.stationIndex)
    (h1 : s.stationIndex ≤ (s.stations.length : Int) - 1) :
    (getCurrentStation s).isSome = true := by
  unfold getCurrentStation jsIndex
  rw [if_pos h0]
  have : s.stationIndex.toNat < s.stations.length := by omega
  simp [List.getElem?_eq_getElem this]

/-- Without stations there is no current station. -/
theorem getCurrentStation_nil (s : State) (h : s.stations = []) :
    getCurrentStation s = none := by
  unfold getCurrentStation jsIndex
  rw [h]
  split_ifs <;> simp

/-- The function `updateStationPreviewFromSlider` with stations loaded: the
index becomes the clamped rounded dial value; nothing but the index and the
labels can change. -/
theorem updateStationPreviewFromSlider_effects (s : State) (hne : s.stations ≠ []) :
    (updateStationPreviewFromSlider s).stationIndex =
      clampInt 0 ((s.stations.length : Int) - 1) (jsRound s.stationDialValue) ∧
    updateStationPreviewFromSlider s =
      { s with stationIndex := (updateStationPreviewFromSlider s).stationIndex,
               stationLabels := (updateStationPreviewFromSlider s).stationLabels } := by
  have hlen : s.stations.length ≠ 0 := fun h => hne (List.length_eq_zero.1 h)
  unfold updateStationPreviewFromSlider
  simp only [hlen, if_false]
  split_ifs with h
  · exact ⟨rfl, rfl⟩
  · simp only [ne_eq, not_not] at h
    exact ⟨h.symm, rfl⟩

/-- The function `updateStationPreviewFromSlider` without stations. -/
theorem updateStationPreviewFromSlider_nil (s : State) (h : s.stations = []) :
    updateStationPreviewFromSlider s = s := by
  unfold updateStationPreviewFromSlider
  simp [h]

/-- The function `handleStationChange` while powered off. -/
theorem handleStationChange_off (s : State) (index : Int) (env : PlayEnv)
    (hne : s.stations ≠ []) (hoff : s.isPoweredOn = false) :
    ∃ station,
      jsIndex s.stations (clampInt 0 ((s.stations.length : Int) - 1) index) = some station ∧
      handleStationChange s index env =
        some { s with
          stationIndex := clampInt 0 ((s.stations.length : Int) - 1) index,
          stationDialValue := ((clampInt 0 ((s.stations.length : Int) - 1) index : Int) : ℚ),
          stationLabels := s.stations.enum.map (fun p =>
            (p.2.name,
              decide ((p.1 : Int) = clampInt 0 ((s.stations.length : Int) - 1) index))),
          trackMeta := station.name ++ " selected. Press Power On." } := by
  have hlen : s.stations.length ≠ 0 := fun h => hne (List.length_eq_zero.1 h)
  have hpos : (0 : Int) ≤ (s.stations.length : Int) - 1 := by omega
  obtain ⟨r1, r2⟩ := clampInt_range 0 ((s.stations.length : Int) - 1) index hpos
  have hsome := getCurrentStation_isSome
    { s with stationIndex := clampInt 0 ((s.stations.length : Int) - 1) index } r1 r2
  obtain ⟨station, hst⟩ := Option.isSome_iff_exists.1 hsome
  refine ⟨station, hst, ?_⟩
  have hst' : getCurrentStation (renderStationLabels
      { s with stationIndex := clampInt 0 ((s.stations.length : Int) - 1) index,
               stationDialValue :=
                 ((clampInt 0 ((s.stations.length : Int) - 1) index : Int) : ℚ) }) =
      some station := hst
  unfold handleStationChange
  simp only [hlen, if_false]
  have hoff' : (renderStationLabels
      { s with stationIndex := clampInt 0 ((s.stations.length : Int) - 1) index,
               stationDialValue :=
                 ((clampInt 0 ((s.stations.length : Int) - 1) index : Int) : ℚ) }).isPoweredOn
      = false := hoff
  rw [if_neg (by rw [hoff']; decide), hst']
  rfl

/-- The function `handleStationChange` while powered on: it hands over to
`playFromCurrentStation` once the index is set. -/
theorem handleStationChange_on (s : State) (index : Int) (env : PlayEnv)
    (hne : s.stations ≠ []) (hon : s.isPoweredOn = true) :
    handleStationChange s index env =
      playFromCurrentStation
        (renderStationLabels
          { s with stationIndex := clampInt 0 ((s.stations.length : Int) - 1) index,
                   stationDialValue :=
                     ((clampInt 0 ((s.stations.length : Int) - 1) index : Int) : ℚ) }) env := by
  have hlen : s.stations.length ≠ 0 := fun h => hne (List.length_eq_zero.1 h)
  have hon' : (renderStationLabels
      { s with stationIndex := clampInt 0 ((s.stations.length : Int) - 1) index,
               stationDialValue :=
                 ((clampInt 0 ((s.stations.length : Int) - 1) index : Int) : ℚ) }).isPoweredOn
      = true := hon
  unfold handleStationChange
  simp only [hlen, if_false]
  rw [if_pos hon']

/-- The function `handleStationChange` without stations. -/
theorem handleStationChange_nil (s : State) (index : Int) (env : PlayEnv)
    (h : s.stations = []) : handleStationChange s index env = some s := by
  unfold handleStationChange
  simp [h]

/-- What `handleStationChange` does to the session when it returns, stations
being loaded. -/
theorem handleStationChange_effects (s s1 : State) (index : Int) (env : PlayEnv)
    (hne : s.stations ≠ []) (h : handleStationChange s index env = some s1) :
    s1.stations = s.stations ∧
    s1.stationIndex = clampInt 0 ((s.stations.length : Int) - 1) index ∧
    s1.isShuffle = s.isShuffle ∧
    s1.stationSnapAnimating = s.stationSnapAnimating ∧ s1.pendingSnap = s.pendingSnap ∧
    (∃ rest, s1.calls = s.calls ++ rest ∧
      (Call.playFromCurrentStation ∈ rest ↔ s.isPoweredOn = true) ∧
      (Call.getNextTrack ∈ rest ↔ s.isPoweredOn = true)) ∧
    ((s1.consecutiveTrackErrors = 0 ∧ s1.isPoweredOn = true) ∨
      (s1.consecutiveTrackErrors = s.consecutiveTrackErrors ∧
        (s1.isPoweredOn = true → s.isPoweredOn = true))) := by
  by_cases hon : s.isPoweredOn = true
  · rw [handleStationChange_on s index env hne hon] at h
    obtain ⟨e1, e2, e3, e4, e5, _, ⟨rest, e7, e7'⟩, e8⟩ := playFromCurrentStation_effects _ _ _ h
    have hlen : s.stations.length ≠ 0 := fun h => hne (List.length_eq_zero.1 h)
    have hpos : (0 : Int) ≤ (s.stations.length : Int) - 1 := by omega
    obtain ⟨r1, r2⟩ := clampInt_range 0 ((s.stations.length : Int) - 1) index hpos
    have hsome := getCurrentStation_isSome
      { s with stationIndex := clampInt 0 ((s.stations.length : Int) - 1) index } r1 r2
    have hcur : getCurrentStation (renderStationLabels
        { s with stationIndex := clampInt 0 ((s.stations.length : Int) - 1) index,
                 stationDialValue :=
                   ((clampInt 0 ((s.stations.length : Int) - 1) index : Int) : ℚ) }) ≠ none := by
      intro hc
      have hc' : getCurrentStation
          { s with stationIndex := clampInt 0 ((s.stations.length : Int) - 1) index } = none := hc
      rw [hc'] at hsome
      exact absurd hsome (by simp)
    refine ⟨e1, e2, e3, e4, e5, ⟨Call.playFromCurrentStation :: rest, e7, ?_, ?_⟩, ?_⟩
    · simp [hon]
    · simp only [hon, iff_true]
      exact List.mem_cons_of_mem _ (e7' hcur)
    · rcases e8 with ⟨a, b, _, _⟩ | ⟨a, b⟩
      · exact Or.inl ⟨a, b⟩
      · exact Or.inr ⟨a, b⟩
  · have hoff : s.isPoweredOn = false := by simpa using hon
    obtain ⟨station, _, hres⟩ := handleStationChange_off s index env hne hoff
    rw [hres] at h
    simp only [Option.some.injEq] at h
    subst h
    refine ⟨rfl, rfl, rfl, rfl, rfl, ⟨[], by simp, ?_, ?_⟩, Or.inr ⟨rfl, fun hh => hh⟩⟩
    · simp [hoff]
    · simp [hoff]

/-- With the index in range `getCurrentStation` returns a station. -/
theorem stationIndexInRange_current (s : State) (h : stationIndexInRange s) :
    ∃ station, getCurrentStation s = some station :=
  Option.isSome_iff_exists.1 (getCurrentStation_isSome s h.1 h.2)

/-- A state whose index is a clamped value, stations being loaded, has its
index in range. -/
theorem stationIndexInRange_of_clamp (s s1 : State) (x : Int) (hne : s.stations ≠ [])
    (h1 : s1.stations = s.stations)
    (h2 : s1.stationIndex = clampInt 0 ((s.stations.length : Int) - 1) x) :
    stationIndexInRange s1 := by
  have hlen : s.stations.length ≠ 0 := fun h => hne (List.length_eq_zero.1 h)
  have hpos : (0 : Int) ≤ (s.stations.length : Int) - 1 := by omega
  unfold stationIndexInRange
  rw [h1, h2]
  exact clampInt_range 0 _ x hpos

/-- The function `handleStationChange` returns while powered off and in
sequential mode. -/
theorem handleStationChange_returns (s : State) (index : Int) (env : PlayEnv)
    (h : s.isPoweredOn = false ∨ s.isShuffle = false) :
    ∃ s1, handleStationChange s index env = some s1 := by
  by_cases hne : s.stations = []
  · exact ⟨s, handleStationChange_nil s index env hne⟩
  · by_cases hon : s.isPoweredOn = true
    · have hseq : s.isShuffle = false := by
        rcases h with h | h
        · rw [hon] at h; exact absurd h (by decide)
        · exact h
      rw [handleStationChange_on s index env hne hon]
      apply (playFromCurrentStation_returns_iff _ _).2
      intro station _
      exact getNextTrack_returns _ station env.draws (Or.inl hseq)
    · have hoff : s.isPoweredOn = false := by simpa using hon
      obtain ⟨station, _, hres⟩ := handleStationChange_off s index env hne hoff
      exact ⟨_, hres⟩

/-- One frame of the dial snap animation, stations being loaded: the station
list stays, the index ends in range, and on the final frame the index is the
clamped target and the animation is over. -/
theorem snapTick_effects (s s1 : State) (a : Snap) (now : ℚ) (env : PlayEnv)
    (hne : s.stations ≠ []) (ha : s.pendingSnap = some a)
    (h : snapTick s now env = some s1) :
    s1.stations = s.stations ∧ stationIndexInRange s1 ∧
    (1 ≤ (now - a.startedAt) / 220 →
      s1.stationIndex = clampInt 0 ((s.stations.length : Int) - 1) a.target ∧
      s1.stationSnapAnimating = false ∧ s1.pendingSnap = none) ∧
    ((now - a.startedAt) / 220 < 1 →
      s1.stationIndex = clampInt 0 ((s.stations.length : Int) - 1)
        (jsRound (a.start + ((a.target : ℚ) - a.start) *
          (1 - (1 - (now - a.startedAt) / 220) ^ 3))) ∧
      s1.pendingSnap = some a) := by
  unfold snapTick at h
  split at h
  · rename_i hnone
    rw [ha] at hnone
    exact absurd hnone (by simp)
  rename_i a1 hsome
  obtain rfl : a = a1 := Option.some.inj (ha.symm.trans hsome)
  clear hsome
  simp only at h
  have hneA : ({ s with stationDialValue := a.start + ((a.target : ℚ) - a.start) *
      (1 - (1 - min 1 ((now - a.startedAt) / 220)) ^ 3) } : State).stations ≠ [] := hne
  obtain ⟨u1, u2⟩ := updateStationPreviewFromSlider_effects _ hneA
  generalize hsB : updateStationPreviewFromSlider
      ({ s with stationDialValue := a.start + ((a.target : ℚ) - a.start) *
        (1 - (1 - min 1 ((now - a.startedAt) / 220)) ^ 3) } : State) = sB at h u1 u2
  have hB1 : sB.stations = s.stations := by rw [u2]
  have hB2 : sB.pendingSnap = some a := by rw [u2]; exact ha
  simp only at u1
  split_ifs at h with ht
  · simp only [Option.some.injEq] at h
    subst h
    have ht' : (now - a.startedAt) / 220 < 1 := by
      rcases min_lt_iff.1 ht with h1 | h1
      · exact absurd h1 (lt_irrefl _)
      · exact h1
    refine ⟨hB1, stationIndexInRange_of_clamp s sB _ hne hB1 u1, ?_, ?_⟩
    · intro hge
      exact absurd ht' (not_lt.2 hge)
    · intro _
      rw [min_eq_right ht'.le] at u1
      exact ⟨u1, hB2⟩
  · have hge : 1 ≤ (now - a.startedAt) / 220 := by
      by_contra hc
      exact ht (min_lt_iff.2 (Or.inr (not_le.1 hc)))
    have hneC : ({ sB with stationDialValue := (a.target : ℚ),
                           stationSnapAnimating := false,
                           pendingSnap := none } : State).stations ≠ [] := by
      show sB.stations ≠ []
      rw [hB1]; exact hne
    obtain ⟨e1, e2, _, e4, e5, _⟩ := handleStationChange_effects _ s1 a.target env hneC h
    have e1' : s1.stations = s.stations := e1.trans hB1
    have e2' : s1.stationIndex = clampInt 0 ((s.stations.length : Int) - 1) a.target := by
      rw [e2]
      show clampInt 0 ((sB.stations.length : Int) - 1) a.target = _
      rw [hB1]
    refine ⟨e1', stationIndexInRange_of_clamp s s1 _ hne e1' e2', ?_, ?_⟩
    · intro _
      exact ⟨e2', e4, e5⟩
    · intro hlt
      exact absurd hge (not_le.2 hlt)

/-- The functions `tuneToStation` and `commitStationDialSelection` when no
snap animation runs: they schedule one towards the clamped target and leave
the rest of the state alone. -/
theorem tuneToStation_schedules (s : State) (index : Int) (now : ℚ)
    (hne : s.stations ≠ []) (hidle : s.stationSnapAnimating = false) :
    tuneToStation s index now =
      { s with stationSnapAnimating := true,
               pendingSnap := some { start := s.stationDialValue,
                                     target := clampInt 0 ((s.stations.length : Int) - 1) index,
                                     startedAt := now } } ∧
    commitStationDialSelection s now =
      { s with stationSnapAnimating := true,
               pendingSnap := some { start := s.stationDialValue,
                                     target := clampInt 0 ((s.stations.length : Int) - 1)
                                       (jsRound s.stationDialValue),
                                     startedAt := now } } := by
  have hlen : s.stations.length ≠ 0 := fun h => hne (List.length_eq_zero.1 h)
  unfold tuneToStation commitStationDialSelection animateStationDialTo
  simp [hlen, hidle]

/-- One frame of the dial snap animation without stations leaves the index. -/
theorem snapTick_nil (s s1 : State) (now : ℚ) (env : PlayEnv) (hnil : s.stations = [])
    (h : snapTick s now env = some s1) : s1.stationIndex = s.stationIndex := by
  unfold snapTick at h
  split at h
  · simp only [Option.some.injEq] at h
    rw [← h]
  · rename_i a _
    simp only at h
    have hnilA : ({ s with stationDialValue := a.start + ((a.target : ℚ) - a.start) *
        (1 - (1 - min 1 ((now - a.startedAt) / 220)) ^ 3) } : State).stations = [] := hnil
    rw [updateStationPreviewFromSlider_nil _ hnilA] at h
    split_ifs at h
    · simp only [Option.some.injEq] at h
      rw [← h]
    · unfold handleStationChange at h
      simp only [hnil, List.length_nil, if_true, Option.some.injEq] at h
      rw [← h]

/-- C7. Station index stays in range. With a non-empty station list: after
`handleStationChange(index)` for any integer `index` the index is `index`
clamped to `[0, stations.length - 1]` (itself when in range, the nearest end
otherwise); after `updateStationPreviewFromSlider` it is the clamped rounded
dial value; after any frame of a dial snap animation it is in range, and after
the final frame of the animation started by `tuneToStation(index)` or
`commitStationDialSelection()` it is the clamped target; in each case
`getCurrentStation` returns a station. With an empty station list these
operations leave `stationIndex` unchanged. `handleStationChange` returns
whenever the session is powered off or in sequential mode. -/
theorem station_index_stays_in_range (s : State) :
    (s.stations ≠ [] →
      (∀ (index : Int) (env : PlayEnv) (s1 : State),
        handleStationChange s index env = some s1 →
          s1.stations = s.stations ∧
          s1.stationIndex = clampInt 0 ((s.stations.length : Int) - 1) index ∧
          stationIndexInRange s1 ∧ ∃ station, getCurrentStation s1 = some station) ∧
      (∀ index : Int,
        (0 ≤ index → index ≤ (s.stations.length : Int) - 1 →
          clampInt 0 ((s.stations.length : Int) - 1) index = index) ∧
        (index < 0 → clampInt 0 ((s.stations.length : Int) - 1) index = 0) ∧
        ((s.stations.length : Int) - 1 < index →
          clampInt 0 ((s.stations.length : Int) - 1) index = (s.stations.length : Int) - 1)) ∧
      ((updateStationPreviewFromSlider s).stations = s.stations ∧
        (updateStationPreviewFromSlider s).stationIndex =
          clampInt 0 ((s.stations.length : Int) - 1) (jsRound s.stationDialValue) ∧
        stationIndexInRange (updateStationPreviewFromSlider s) ∧
        ∃ station, getCurrentStation (updateStationPreviewFromSlider s) = some station) ∧
      (∀ (a : Snap) (now : ℚ) (env : PlayEnv) (s1 : State), s.pendingSnap = some a →
        snapTick s now env = some s1 →
          s1.stations = s.stations ∧ stationIndexInRange s1 ∧
          ∃ station, getCurrentStation s1 = some station) ∧
      (∀ (index : Int) (now0 now : ℚ) (env : PlayEnv) (s1 : State),
        s.stationSnapAnimating = false → 220 ≤ now - now0 →
        snapTick (tuneToStation s index now0) now env = some s1 →
          s1.stationIndex = clampInt 0 ((s.stations.length : Int) - 1) index ∧
          s1.stations = s.stations ∧ stationIndexInRange s1) ∧
      (∀ (now0 now : ℚ) (env : PlayEnv) (s1 : State),
        s.stationSnapAnimating = false → 220 ≤ now - now0 →
        snapTick (commitStationDialSelection s now0) now env = some s1 →
          s1.stationIndex =
            clampInt 0 ((s.stations.length : Int) - 1) (jsRound s.stationDialValue) ∧
          s1.stations = s.stations ∧ stationIndexInRange s1)) ∧
    (s.stations = [] → ∀ (index : Int) (env : PlayEnv) (now : ℚ),
      handleStationChange s index env = some s ∧
      updateStationPreviewFromSlider s = s ∧
      tuneToStation s index now = s ∧
      commitStationDialSelection s now = s ∧
      ∀ s1, snapTick s now env = some s1 → s1.stationIndex = s.stationIndex) ∧
    (∀ (index : Int) (env : PlayEnv), s.isPoweredOn = false ∨ s.isShuffle = false →
      ∃ s1, handleStationChange s index env = some s1) := by
  refine ⟨?_, ?_, fun index env h => handleStationChange_returns s index env h⟩
  · intro hne
    have hlen : s.stations.length ≠ 0 := fun h => hne (List.length_eq_zero.1 h)
    have hpos : (0 : Int) ≤ (s.stations.length : Int) - 1 := by omega
    refine ⟨?_, ?_, ?_, ?_, ?_, ?_⟩
    · intro index env s1 h
      obtain ⟨e1, e2, _⟩ := handleStationChange_effects s s1 index env hne h
      have hr := stationIndexInRange_of_clamp s s1 index hne e1 e2
      exact ⟨e1, e2, hr, stationIndexInRange_current s1 hr⟩
    · intro index
      refine ⟨fun h1 h2 => clampInt_of_range 0 _ index h1 h2, ?_, ?_⟩
      · intro h
        unfold clampInt
        rw [min_eq_right (by omega), max_eq_left (by omega)]
      · intro h
        unfold clampInt
        rw [min_eq_left (by omega), max_eq_right hpos]
    · obtain ⟨u1, u2⟩ := updateStationPreviewFromSlider_effects s hne
      have hst : (updateStationPreviewFromSlider s).stations = s.stations := by rw [u2]
      have hr := stationIndexInRange_of_clamp s _ _ hne hst u1
      exact ⟨hst, u1, hr, stationIndexInRange_current _ hr⟩
    · intro a now env s1 ha h
      obtain ⟨e1, e2, _⟩ := snapTick_effects s s1 a now env hne ha h
      exact ⟨e1, e2, stationIndexInRange_current s1 e2⟩
    · intro index now0 now env s1 hidle hdone h
      obtain ⟨hT, _⟩ := tuneToStation_schedules s index now0 hne hidle
      have hT1 : (tuneToStation s index now0).stations = s.stations := by rw [hT]
      have hT2 : (tuneToStation s index now0).pendingSnap =
          some { start := s.stationDialValue,
                 target := clampInt 0 ((s.stations.length : Int) - 1) index,
                 startedAt := now0 } := by rw [hT]
      obtain ⟨e1, e2, e3, _⟩ := snapTick_effects (tuneToStation s index now0) s1 _ now env
        (by rw [hT1]; exact hne) hT2 h
      rw [hT1] at e1 e3
      have hge : (1 : ℚ) ≤ (now - now0) / 220 := by
        rw [le_div_iff₀ (by norm_num)]; linarith
      obtain ⟨f1, _, _⟩ := e3 hge
      simp only at f1
      obtain ⟨r1, r2⟩ := clampInt_range 0 ((s.stations.length : Int) - 1) index hpos
      refine ⟨?_, e1, e2⟩
      rw [f1]
      exact clampInt_of_range 0 _ _ r1 r2
    · intro now0 now env s1 hidle hdone h
      obtain ⟨_, hT⟩ := tuneToStation_schedules s 0 now0 hne hidle
      have hT1 : (commitStationDialSelection s now0).stations = s.stations := by rw [hT]
      have hT2 : (commitStationDialSelection s now0).pendingSnap =
          some { start := s.stationDialValue,
                 target := clampInt 0 ((s.stations.length : Int) - 1)
                   (jsRound s.stationDialValue),
                 startedAt := now0 } := by rw [hT]
      obtain ⟨e1, e2, e3, _⟩ := snapTick_effects (commitStationDialSelection s now0) s1 _ now env
        (by rw [hT1]; exact hne) hT2 h
      rw [hT1] at e1 e3
      have hge : (1 : ℚ) ≤ (now - now0) / 220 := by
        rw [le_div_iff₀ (by norm_num)]; linarith
      obtain ⟨f1, _, _⟩ := e3 hge
      simp only at f1
      obtain ⟨r1, r2⟩ := clampInt_range 0 ((s.stations.length : Int) - 1)
        (jsRound s.stationDialValue) hpos
      refine ⟨?_, e1, e2⟩
      rw [f1]
      exact clampInt_of_range 0 _ _ r1 r2
  · intro hnil index env now
    refine ⟨handleStationChange_nil s index env hnil, updateStationPreviewFromSlider_nil s hnil,
      ?_, ?_, fun s1 h => snapTick_nil s s1 now env hnil h⟩
    · unfold tuneToStation
      simp [hnil]
    · unfold commitStationDialSelection
      simp [hnil]

/-! ## Session facts for every listener -/

/-- A current station exists only with stations loaded. -/
theorem stations_ne_nil_of_current (s : State) (h : getCurrentStation s ≠ none) :
    s.stations ≠ [] :=
  fun hnil => h (getCurrentStation_nil s hnil)

/-- What `togglePower` does to the session when it returns: the station list
and index stay; the error counter is kept or reset, never raised; the session
is marked powered on only if it was or there is a current station. -/
theorem togglePower_effects (s s1 : State) (paused : Bool) (env : PlayEnv)
    (h : togglePower s paused env = some s1) :
    s1.stations = s.stations ∧ s1.stationIndex = s.stationIndex ∧
    (s1.consecutiveTrackErrors = s.consecutiveTrackErrors ∨ s1.consecutiveTrackErrors = 0) ∧
    (s1.isPoweredOn = true → s.isPoweredOn = true ∨ getCurrentStation s ≠ none) := by
  unfold togglePower at h
  split_ifs at h with hp ht
  · obtain ⟨e1, e2, _, _, _, _, _, e8⟩ := playFromCurrentStation_effects _ _ _ h
    refine ⟨e1, e2, ?_, ?_⟩
    · rcases e8 with ⟨a, _⟩ | ⟨a, _⟩
      · exact Or.inr a
      · exact Or.inl a
    · intro hon
      rcases e8 with ⟨_, _, _, a⟩ | ⟨_, a⟩
      · exact Or.inr a
      · exact Or.inl (a hon)
  · obtain ⟨hf, _, _⟩ := initThenPlay_frame s env
    cases hitp : initThenPlay s env with
    | mk s2 r =>
      rw [hitp] at hf h
      simp only at hf h
      have b : s2.stations = s.stations ∧ s2.stationIndex = s.stationIndex ∧
          s2.consecutiveTrackErrors = s.consecutiveTrackErrors ∧
          s2.isPoweredOn = s.isPoweredOn := by
        rw [hf]
        exact ⟨rfl, rfl, rfl, rfl⟩
      obtain ⟨b1, b2, b3, b4⟩ := b
      have hcur : getCurrentStation s2 = getCurrentStation s := by
        unfold getCurrentStation; rw [b1, b2]
      cases r with
      | pending =>
        simp only [Option.some.injEq] at h
        subst h
        exact ⟨b1, b2, Or.inl b3, fun hon => Or.inl (b4 ▸ hon)⟩
      | rejected =>
        simp only [Option.some.injEq] at h
        subst h
        exact ⟨b1, b2, Or.inl b3, fun hon => Or.inl (b4 ▸ hon)⟩
      | resolved =>
        simp only at h
        split at h
        · rename_i station hst
          simp only [Option.some.injEq] at h
          subst h
          refine ⟨b1, b2, Or.inl b3, fun _ => Or.inr ?_⟩
          rw [← hcur, hst]
          simp
        · simp only [Option.some.injEq] at h
          subst h
          exact ⟨b1, b2, Or.inl b3, fun hon => Or.inl (b4 ▸ hon)⟩
  · simp only [Option.some.injEq] at h
    subst h
    exact ⟨rfl, rfl, Or.inl rfl, fun hon => absurd hon (by simp [setStatus, logCall])⟩

/-- The fields `updateStationPreviewFromSlider` can change are the index and
the labels. -/
theorem updateStationPreviewFromSlider_frame (s : State) :
    updateStationPreviewFromSlider s =
      { s with stationIndex := (updateStationPreviewFromSlider s).stationIndex,
               stationLabels := (updateStationPreviewFromSlider s).stationLabels } := by
  by_cases hnil : s.stations = []
  · rw [updateStationPreviewFromSlider_nil s hnil]
  · exact (updateStationPreviewFromSlider_effects s hnil).2

/-- The session after `handleStationChange`, with or without stations. -/
theorem handleStationChange_session (s s1 : State) (index : Int) (env : PlayEnv)
    (h : handleStationChange s index env = some s1) :
    s1.stations = s.stations ∧
    (s1.consecutiveTrackErrors = s.consecutiveTrackErrors ∨ s1.consecutiveTrackErrors = 0) ∧
    (s1.isPoweredOn = true → s.isPoweredOn = true ∨ s.stations ≠ []) := by
  by_cases hnil : s.stations = []
  · rw [handleStationChange_nil s index env hnil] at h
    simp only [Option.some.injEq] at h
    subst h
    exact ⟨rfl, Or.inl rfl, fun hon => Or.inl hon⟩
  · obtain ⟨e1, _, _, _, _, _, e7⟩ := handleStationChange_effects s s1 index env hnil h
    refine ⟨e1, ?_, fun _ => Or.inr hnil⟩
    rcases e7 with ⟨a, _⟩ | ⟨a, _⟩
    · exact Or.inr a
    · exact Or.inl a

/-- The session after a frame of the dial snap animation. -/
theorem snapTick_session (s s1 : State) (now : ℚ) (env : PlayEnv)
    (h : snapTick s now env = some s1) :
    s1.stations = s.stations ∧
    (s1.consecutiveTrackErrors = s.consecutiveTrackErrors ∨ s1.consecutiveTrackErrors = 0) ∧
    (s1.isPoweredOn = true → s.isPoweredOn = true ∨ s.stations ≠ []) := by
  unfold snapTick at h
  split at h
  · simp only [Option.some.injEq] at h
    subst h
    exact ⟨rfl, Or.inl rfl, fun hon => Or.inl hon⟩
  · rename_i a _
    simp only at h
    have hfr := updateStationPreviewFromSlider_frame
      ({ s with stationDialValue := a.start + ((a.target : ℚ) - a.start) *
        (1 - (1 - min 1 ((now - a.startedAt) / 220)) ^ 3) } : State)
    generalize updateStationPreviewFromSlider
      ({ s with stationDialValue := a.start + ((a.target : ℚ) - a.start) *
        (1 - (1 - min 1 ((now - a.startedAt) / 220)) ^ 3) } : State) = sB at h hfr
    have b : sB.stations = s.stations ∧
        sB.consecutiveTrackErrors = s.consecutiveTrackErrors ∧
        sB.isPoweredOn = s.isPoweredOn := by
      rw [hfr]
      exact ⟨rfl, rfl, rfl⟩
    obtain ⟨b1, b2, b3⟩ := b
    split_ifs at h
    · simp only [Option.some.injEq] at h
      subst h
      exact ⟨b1, Or.inl b2, fun hon => Or.inl (b3 ▸ hon)⟩
    · obtain ⟨e1, e2, e3⟩ := handleStationChange_session _ s1 a.target env h
      refine ⟨e1.trans b1, ?_, ?_⟩
      · rcases e2 with a | a
        · exact Or.inl (a.trans b2)
        · exact Or.inr a
      · intro hon
        rcases e3 hon with a | a
        · exact Or.inl (b3 ▸ a)
        · exact Or.inr (fun hnil => a (b1.trans hnil))

/-- The function `loadStations` keeps the power state and the error counter,
and a non-empty station list stays non-empty. -/
theorem loadStations_session (s : State) (r : LoadResult) :
    (loadStations s r).isPoweredOn = s.isPoweredOn ∧
    (loadStations s r).consecutiveTrackErrors = s.consecutiveTrackErrors ∧
    (s.stations ≠ [] → (loadStations s r).stations ≠ []) := by
  unfold loadStations
  cases r with
  | failed message => exact ⟨rfl, rfl, fun h => h⟩
  | loaded data =>
    simp only
    cases data with
    | none => exact ⟨rfl, rfl, fun h => h⟩
    | some raw =>
      cases raw with
      | nil => exact ⟨rfl, rfl, fun h => h⟩
      | cons st more =>
        refine ⟨rfl, rfl, fun _ => ?_⟩
        simp [validateStationData, renderStationLabels, setStatus, List.enum]

/-- Every listener: a loaded station list stays loaded; the session is marked
powered on only if it was or stations are loaded; and no listener other than
the audio `error` listener raises the error counter. -/
theorem step_session (s s1 : State) (e : Event) (h : step s e = some s1) :
    (s.stations ≠ [] → s1.stations ≠ []) ∧
    (s1.isPoweredOn = true → s.isPoweredOn = true ∨ s1.stations ≠ []) ∧
    ((∀ env, e ≠ Event.audioError env) →
      s1.consecutiveTrackErrors = s.consecutiveTrackErrors ∨ s1.consecutiveTrackErrors = 0) := by
  cases e with
  | powerClick paused env =>
    obtain ⟨e1, _, e3, e4⟩ := togglePower_effects s s1 paused env h
    refine ⟨fun hne => e1 ▸ hne, fun hon => ?_, fun _ => e3⟩
    rcases e4 hon with a | a
    · exact Or.inl a
    · exact Or.inr (e1 ▸ stations_ne_nil_of_current s a)
  | nextClick env =>
    simp only [step, onNextClick] at h
    split_ifs at h with hz
    · simp only [Option.some.injEq] at h
      subst h
      exact ⟨fun hne => hne, fun hon => Or.inl hon, fun _ => Or.inl rfl⟩
    · obtain ⟨e1, _, _, _, _, _, _, e8⟩ := playFromCurrentStation_effects _ _ _ h
      refine ⟨fun hne => e1 ▸ hne, fun hon => ?_, fun _ => ?_⟩
      · rcases e8 with ⟨_, _, _, a⟩ | ⟨_, a⟩
        · exact Or.inr (e1 ▸ stations_ne_nil_of_current s a)
        · exact Or.inl (a hon)
      · rcases e8 with ⟨a, _⟩ | ⟨a, _⟩
        · exact Or.inr a
        · exact Or.inl a
  | shuffleClick =>
    simp only [step, onShuffleClick, Option.some.injEq] at h
    subst h
    exact ⟨fun hne => hne, fun hon => Or.inl hon, fun _ => Or.inl rfl⟩
  | stationDialInput value =>
    simp only [step, onStationDialInput, Option.some.injEq] at h
    subst h
    rw [updateStationPreviewFromSlider_frame]
    exact ⟨fun hne => hne, fun hon => Or.inl hon, fun _ => Or.inl rfl⟩
  | stationDialCommit now =>
    simp only [step, commitStationDialSelection, animateStationDialTo, Option.some.injEq] at h
    subst h
    split_ifs <;> exact ⟨fun hne => hne, fun hon => Or.inl hon, fun _ => Or.inl rfl⟩
  | stationLabelClick index now =>
    simp only [step, onStationLabelClick, tuneToStation, animateStationDialTo,
      Option.some.injEq] at h
    subst h
    split_ifs <;> exact ⟨fun hne => hne, fun hon => Or.inl hon, fun _ => Or.inl rfl⟩
  | snapFrame now env =>
    obtain ⟨e1, e2, e3⟩ := snapTick_session s s1 now env h
    refine ⟨fun hne => e1 ▸ hne, fun hon => ?_, fun _ => e2⟩
    rcases e3 hon with a | a
    · exact Or.inl a
    · exact Or.inr (e1 ▸ a)
  | volumeInput value =>
    simp only [step, applyVolume, Option.some.injEq] at h
    subst h
    split_ifs <;> exact ⟨fun hne => hne, fun hon => Or.inl hon, fun _ => Or.inl rfl⟩
  | toneInput value =>
    simp only [step, applyTone, Option.some.injEq] at h
    subst h
    split <;> exact ⟨fun hne => hne, fun hon => Or.inl hon, fun _ => Or.inl rfl⟩
  | audioEnded env =>
    simp only [step, onAudioEnded] at h
    obtain ⟨e1, _, _, _, _, _, _, e8⟩ := playFromCurrentStation_effects _ _ _ h
    refine ⟨fun hne => e1 ▸ hne, fun hon => ?_, fun _ => ?_⟩
    · rcases e8 with ⟨_, _, _, a⟩ | ⟨_, a⟩
      · exact Or.inr (e1 ▸ stations_ne_nil_of_current s a)
      · exact Or.inl (a hon)
    · rcases e8 with ⟨a, _⟩ | ⟨a, _⟩
      · exact Or.inr a
      · exact Or.inl a
  | audioError env =>
    simp only [step] at h
    refine ⟨?_, ?_, fun hne => absurd rfl (hne env)⟩
    · intro hne
      rw [(onAudioError_nav s s1 env h).1]
      exact hne
    · intro hon
      by_cases hlt : s.consecutiveTrackErrors + 1 < maxSkipsOf (stationTrackCount s)
      · rw [onAudioError_below_threshold s env hlt] at h
        obtain ⟨e1, _, _, _, _, _, _, e8⟩ := playFromCurrentStation_effects _ _ _ h
        rcases e8 with ⟨_, _, _, a⟩ | ⟨_, a⟩
        · exact Or.inr (e1 ▸ stations_ne_nil_of_current _ a)
        · exact Or.inl (a hon)
      · rw [onAudioError_at_threshold s env (Nat.not_lt.1 hlt)] at h
        simp only [Option.some.injEq] at h
        subst h
        exact absurd hon (by simp)
  | stationsFetched r =>
    simp only [step, Option.some.injEq] at h
    subst h
    obtain ⟨e1, e2, e3⟩ := loadStations_session s r
    exact ⟨e3, fun hon => Or.inl (e1 ▸ hon), fun _ => Or.inl e2⟩

/-- In every reachable state that is powered on, stations are loaded. -/
theorem reachable_poweredOn (s : State) (h : Reachable s) :
    s.isPoweredOn = true → s.stations ≠ [] := by
  induction h with
  | init volumeDial toneDial =>
    intro hon
    simp [applyVolume, initialState] at hon
  | next s0 s1 e _ hstep ih =>
    intro hon
    obtain ⟨e1, e2, _⟩ := step_session s0 s1 e hstep
    rcases e2 hon with a | a
    · exact e1 (ih a)
    · exact a

/-! ## Navigation while powered off -/

/-- C8. Navigation while off does not autoplay. For every state with
`isPoweredOn = false` and every index, `handleStationChange(index)` returns
having changed nothing but `stationIndex` and the displayed selection (the
dial position, the labels and the track line): the call log is unchanged, so
neither `getNextTrack` nor `playFromCurrentStation` runs, and `currentTrack`,
`lastTrackByStation`, `isPoweredOn`, `consecutiveTrackErrors`, `useAudioGraph`
and `audio.src` are unchanged. `updateStationPreviewFromSlider` changes the
index and the labels only. With stations loaded, and in every reachable state,
`handleStationChange` calls `playFromCurrentStation` exactly when
`isPoweredOn = true`. -/
theorem navigation_while_off_does_not_autoplay (s : State) (index : Int) (env : PlayEnv) :
    (s.isPoweredOn = false →
      ∃ s1, handleStationChange s index env = some s1 ∧
        s1 = { s with stationIndex := s1.stationIndex,
                      stationDialValue := s1.stationDialValue,
                      stationLabels := s1.stationLabels,
                      trackMeta := s1.trackMeta } ∧
        s1.calls = s.calls ∧ s1.currentTrack = s.currentTrack ∧
        s1.lastTrackByStation = s.lastTrackByStation ∧ s1.isPoweredOn = false ∧
        s1.consecutiveTrackErrors = s.consecutiveTrackErrors ∧
        s1.useAudioGraph = s.useAudioGraph ∧ s1.audioSrc = s.audioSrc ∧
        (s.stations ≠ [] →
          s1.stationIndex = clampInt 0 ((s.stations.length : Int) - 1) index ∧
          ∃ station, getCurrentStation s1 = some station ∧
            s1.trackMeta = station.name ++ " selected. Press Power On.")) ∧
    updateStationPreviewFromSlider s =
      { s with stationIndex := (updateStationPreviewFromSlider s).stationIndex,
               stationLabels := (updateStationPreviewFromSlider s).stationLabels } ∧
    (s.stations ≠ [] → ∀ s1, handleStationChange s index env = some s1 →
      ∃ rest, s1.calls = s.calls ++ rest ∧
        (Call.playFromCurrentStation ∈ rest ↔ s.isPoweredOn = true) ∧
        (Call.getNextTrack ∈ rest ↔ s.isPoweredOn = true)) ∧
    (Reachable s → ∀ s1, handleStationChange s index env = some s1 →
      ∃ rest, s1.calls = s.calls ++ rest ∧
        (Call.playFromCurrentStation ∈ rest ↔ s.isPoweredOn = true) ∧
        (Call.getNextTrack ∈ rest ↔ s.isPoweredOn = true)) := by
  have h3 : s.stations ≠ [] → ∀ s1, handleStationChange s index env = some s1 →
      ∃ rest, s1.calls = s.calls ++ rest ∧
        (Call.playFromCurrentStation ∈ rest ↔ s.isPoweredOn = true) ∧
        (Call.getNextTrack ∈ rest ↔ s.isPoweredOn = true) := by
    intro hne s1 h
    exact (handleStationChange_effects s s1 index env hne h).2.2.2.2.2.1
  refine ⟨?_, updateStationPreviewFromSlider_frame s, h3, ?_⟩
  · intro hoff
    by_cases hnil : s.stations = []
    · exact ⟨s, handleStationChange_nil s index env hnil, rfl, rfl, rfl, rfl, hoff, rfl, rfl, rfl,
        fun hne => absurd hnil hne⟩
    · obtain ⟨station, hst, hres⟩ := handleStationChange_off s index env hnil hoff
      refine ⟨_, hres, rfl, rfl, rfl, rfl, hoff, rfl, rfl, rfl, fun _ => ⟨rfl, station, hst, rfl⟩⟩
  · intro hreach s1 h
    by_cases hnil : s.stations = []
    · rw [handleStationChange_nil s index env hnil] at h
      simp only [Option.some.injEq] at h
      subst h
      have hoff : ¬ s.isPoweredOn = true := fun hon => reachable_poweredOn s hreach hon hnil
      exact ⟨[], by simp, by simp [hoff], by simp [hoff]⟩
    · exact h3 hnil s1 h

/-- C8 (witness). Two stations loaded, powered off: `handleStationChange(7)`
selects the last station, shows it, and calls nothing. -/
theorem navigation_while_off_does_not_autoplay_witness :
    ∃ s1, handleStationChange loadedState 7 (envOf [] Settled.resolved Settled.resolved)
        = some s1 ∧
      s1.stationIndex = 1 ∧ s1.trackMeta = "Two selected. Press Power On." ∧
      s1.calls = [] ∧ s1.currentTrack = none ∧ s1.isPoweredOn = false := by
  obtain ⟨s1, h1, _⟩ :=
    (navigation_while_off_does_not_autoplay loadedState 7
      (envOf [] Settled.resolved Settled.resolved)).1 rfl
  have hval : (handleStationChange loadedState 7
      (envOf [] Settled.resolved Settled.resolved)).map
        (fun st => (st.stationIndex, st.trackMeta, st.calls, st.currentTrack, st.isPoweredOn)) =
      some (1, "Two selected. Press Power On.", [], none, false) := by
    with_unfolding_all rfl
  rw [h1] at hval
  simp only [Option.map_some', Option.some.injEq, Prod.mk.injEq] at hval
  exact ⟨s1, h1, hval⟩

/-- C7 (witness). Two stations loaded: `handleStationChange(-3)` returns with
the index clamped to 0, in range. -/
theorem station_index_stays_in_range_witness :
    ∃ s1, handleStationChange loadedState (-3) (envOf [] Settled.resolved Settled.resolved)
        = some s1 ∧ s1.stationIndex = 0 ∧ stationIndexInRange s1 := by
  obtain ⟨h1, _, h3⟩ := station_index_stays_in_range loadedState
  obtain ⟨s1, hs1⟩ := h3 (-3) (envOf [] Settled.resolved Settled.resolved) (Or.inl rfl)
  obtain ⟨_, e2, e3, _⟩ := (h1 (by decide)).1 (-3) _ s1 hs1
  exact ⟨s1, hs1, by rw [e2]; decide, e3⟩

/-! ## The error counter -/

/-- The resume path of `togglePower`: when the loaded track starts again the
session is marked powered on and the error counter is left as it was. -/
theorem togglePower_resume_keeps_counter (s : State) (env : PlayEnv) (station : Station)
    (htrack : trackTruthy s.currentTrack = true)
    (hplay : (initThenPlay s env).2 = Settled.resolved)
    (hst : getCurrentStation s = some station) :
    ∃ s1, togglePower s true env = some s1 ∧ s1.isPoweredOn = true ∧
      s1.consecutiveTrackErrors = s.consecutiveTrackErrors := by
  obtain ⟨hf, _, _⟩ := initThenPlay_frame s env
  unfold togglePower
  simp only [if_true, htrack, Bool.true_eq_false, if_false]
  cases hitp : initThenPlay s env with
  | mk s2 r =>
    rw [hitp] at hf hplay
    simp only at hf hplay
    subst hplay
    have b : s2.stations = s.stations ∧ s2.stationIndex = s.stationIndex ∧
        s2.consecutiveTrackErrors = s.consecutiveTrackErrors := by
      rw [hf]
      exact ⟨rfl, rfl, rfl⟩
    have hcur : getCurrentStation s2 = some station := by
      unfold getCurrentStation
      rw [b.1, b.2.1]
      exact hst
    simp only [hcur]
    exact ⟨_, rfl, rfl, b.2.2⟩

/-- C6 (the failing input). In the example session, after the second Power On
has resumed playback, the session is powered on with the error counter still
at 1; one more audio error then powers off without a retry, although the
station has two valid tracks and playback had started successfully. -/
theorem resume_keeps_error_counter :
    (runEvents (applyVolume (initialState 80 50)) resumeAfterErrorEvents).map
        (fun st => (st.isPoweredOn, st.consecutiveTrackErrors, st.currentTrack)) =
      some (true, 1, some trackB) ∧
    (runEvents (applyVolume (initialState 80 50))
        (resumeAfterErrorEvents ++
          [Event.audioError (envOf [] Settled.resolved Settled.resolved)])).map
        (fun st => (st.isPoweredOn, st.consecutiveTrackErrors, st.calls.getLast?)) =
      some (false, 2, some Call.audioPause) := by
  constructor
  · with_unfolding_all rfl
  · with_unfolding_all rfl

/-- X3. Whenever `playFromCurrentStation` changes the error counter it resets
it to 0 and marks the session powered on, after a resolved `audio.play()`; and
whenever it marks a powered-off session powered on the counter is 0. -/
theorem playFromCurrentStation_resets_counter (s s1 : State) (env : PlayEnv)
    (h : playFromCurrentStation s env = some s1) :
    (s1.consecutiveTrackErrors ≠ s.consecutiveTrackErrors →
      s1.consecutiveTrackErrors = 0 ∧ s1.isPoweredOn = true ∧
      (env.play = Settled.resolved ∨ env.fallbackPlay = Settled.resolved)) ∧
    (s.isPoweredOn = false → s1.isPoweredOn = true → s1.consecutiveTrackErrors = 0) := by
  obtain ⟨_, _, _, _, _, _, _, e8⟩ := playFromCurrentStation_effects s s1 env h
  constructor
  · intro hne
    rcases e8 with ⟨a, b, c, _⟩ | ⟨a, _⟩
    · exact ⟨a, b, c⟩
    · exact absurd a hne
  · intro hoff hon
    rcases e8 with ⟨a, _⟩ | ⟨_, b⟩
    · exact a
    · rw [b hon] at hoff
      exact absurd hoff (by decide)

/-- X3 (witness). From a powered-off state whose counter is 1, a start that
resolves leaves the counter at 0 and the session powered on. -/
theorem playFromCurrentStation_resets_counter_witness :
    ∃ s1, playFromCurrentStation
        { sequentialState with stations := [stationAB], consecutiveTrackErrors := 1 }
        (envOf [] Settled.resolved Settled.resolved) = some s1 ∧
      s1.consecutiveTrackErrors = 0 ∧ s1.isPoweredOn = true := by
  obtain ⟨s1, hs1⟩ := (playFromCurrentStation_returns_iff
    { sequentialState with stations := [stationAB], consecutiveTrackErrors := 1 }
    (envOf [] Settled.resolved Settled.resolved)).2
    (fun station _ => getNextTrack_returns _ station _ (Or.inl rfl))
  have hval : (playFromCurrentStation
      { sequentialState with stations := [stationAB], consecutiveTrackErrors := 1 }
      (envOf [] Settled.resolved Settled.resolved)).map
        (fun st => (st.consecutiveTrackErrors, st.isPoweredOn)) = some (0, true) := by
    with_unfolding_all rfl
  rw [hs1] at hval
  simp only [Option.map_some', Option.some.injEq, Prod.mk.injEq] at hval
  have h := (playFromCurrentStation_resets_counter _ s1 _ hs1).1
    (by rw [hval.1]; exact fun e => absurd e (by decide))
  exact ⟨s1, hs1, h.1, h.2.1⟩

/-- X4. No listener other than the audio `error` listener raises the error
counter: each keeps it or resets it to 0. The `error` listener raises it by
exactly one unless its retry starts playback, which resets it. -/
theorem only_error_listener_raises_counter (s s1 : State) (e : Event)
    (h : step s e = some s1) :
    ((∀ env, e ≠ Event.audioError env) →
      s1.consecutiveTrackErrors ≤ s.consecutiveTrackErrors ∧
      (s1.consecutiveTrackErrors = s.consecutiveTrackErrors ∨ s1.consecutiveTrackErrors = 0)) ∧
    (∀ env, e = Event.audioError env →
      s1.consecutiveTrackErrors = s.consecutiveTrackErrors + 1 ∨
      s1.consecutiveTrackErrors = 0) := by
  constructor
  · intro hne
    have h3 := (step_session s s1 e h).2.2 hne
    refine ⟨?_, h3⟩
    rcases h3 with a | a <;> omega
  · intro env he
    subst he
    simp only [step] at h
    by_cases hlt : s.consecutiveTrackErrors + 1 < maxSkipsOf (stationTrackCount s)
    · rw [onAudioError_below_threshold s env hlt] at h
      obtain ⟨_, _, _, _, _, _, _, e8⟩ := playFromCurrentStation_effects _ _ _ h
      rcases e8 with ⟨a, _⟩ | ⟨a, _⟩
      · exact Or.inr a
      · exact Or.inl a
    · rw [onAudioError_at_threshold s env (Nat.not_lt.1 hlt)] at h
      simp only [Option.some.injEq] at h
      subst h
      exact Or.inl rfl

/-- X4 (witness). Pressing Pause in the live example state keeps the counter. -/
theorem only_error_listener_raises_counter_witness :
    ∃ s1, step liveStateAB (Event.powerClick false
        (envOf [] Settled.resolved Settled.resolved)) = some s1 ∧
      s1.consecutiveTrackErrors ≤ liveStateAB.consecutiveTrackErrors :=
  ⟨_, rfl, ((only_error_listener_raises_counter liveStateAB _
    (Event.powerClick false (envOf [] Settled.resolved Settled.resolved)) rfl).1
    (fun env he => by cases he)).1⟩

end Wradio
